import Mathlib

/-!
# fsgps `status.c`: candidate aggregation, time-consensus filter, fix smoother

A shallow embedding of `status_show` (src/fast_fsgps/status.c) from the
collector loop at line 169 to the end of the function.

Conventions of the embedding
* C `double` values are rationals (exact arithmetic, no rounding); the
  constant `0.1` is the rational 1/10.  In the collector loop, where a double
  comes straight from a function outside status.c and is compared at line 192,
  it is a `Double`: a rational, an infinity, or NaN.
* The five parallel arrays `pos_sv`, `pos_x`, `pos_y`, `pos_z`, `pos_t` are
  lists holding the whole array (all `MAX_POS` slots, the stale slots at and
  after `pos_used` included); `pos_used` is passed next to them.
* An array read `a[i]` is `List.getD a i 0`, a write `a[i] = v` is
  `List.set a i v`.  The one read whose index can leave the array, the read
  of `pos_t[c]` at line 217, is modelled by `read_agreed_time`, which
  answers `none` for an index outside the `MAX_POS` slots.
* Each `for` loop is a recursive function over the loop variables, with the
  loop condition as the guard of the recursion.
* `solve_location` and `solve_LatLonAlt` are not part of this file of the
  repository; they are parameters (`Solver`), and every call is logged as an
  `Event`, as is every `show_line`.
* The functions of channel.h and nav.h are parameters as well (`Receiver`); the
  collector loop logs every index at which it writes an array or hands out a
  pointer into one.
* The `static` history arrays and `average_index` are a `FixHistory` passed in
  and out of each tick.
-/

namespace Fsgps

/-! ## Constants and data -/

/-- Line 44: `#define MAX_POS 10`. -/
def MAX_POS : Nat := 10

/-- Line 47: `#define AVERAGE_LEN 21`. -/
def AVERAGE_LEN : Nat := 21

/-- Line 45: `static const double PI = 3.1415926535898;`. -/
def PI : ℚ := 3.1415926535898

/-- The arrays of lines 114 and 117: `pos_sv`, `pos_x`, `pos_y`, `pos_z`, `pos_t`. -/
structure PosArrays where
  pos_sv : List Int
  pos_x : List ℚ
  pos_y : List ℚ
  pos_z : List ℚ
  pos_t : List ℚ
deriving DecidableEq

/-- One row of the five arrays, read together: `sv, x, y, z, t`. -/
structure Candidate where
  sv : Int
  x : ℚ
  y : ℚ
  z : ℚ
  t : ℚ
deriving DecidableEq

/-- The row `i` of the arrays. -/
def candidate_at (a : PosArrays) (i : Nat) : Candidate :=
  { sv := a.pos_sv.getD i 0
    x := a.pos_x.getD i 0
    y := a.pos_y.getD i 0
    z := a.pos_z.getD i 0
    t := a.pos_t.getD i 0 }

/-- The candidate list: rows `0 .. pos_used-1` of the arrays, in index order. -/
def candidates (a : PosArrays) (pos_used : Nat) : List Candidate :=
  (List.range pos_used).map (candidate_at a)

/-! ## The time-consensus filter, lines 200-242 -/

/-- Lines 205-208 and again 222-225 (the comment there: "Remove weekly wraps"):
`if(d > 7*24*3600/2) d -= 7*24*3600/2; if(d < -7*24*3600/2) d += 7*24*3600/2;`. -/
def remove_weekly_wraps (d : ℚ) : ℚ :=
  let d1 := if d > 7*24*3600/2 then d - 7*24*3600/2 else d
  if d1 < -7*24*3600/2 then d1 + 7*24*3600/2 else d1

/-- The difference both loops test, as a function of the two times: `a - b`
after the adjustment of `remove_weekly_wraps` (`pos_t[c2] - pos_t[c]` at line 203,
`agreed_time - pos_t[c]` at line 220). -/
def code_difference (a b : ℚ) : ℚ := remove_weekly_wraps (a - b)

/-- Lines 202-212, the inner loop `for(c2 = c+1; c2 < pos_used; c2++)` of the
quorum search: `n` is incremented for each `c2` with `fabs(d) < 0.1`, where
`d = pos_t[c2] - pos_t[c]` after the wrap adjustment.  Returns the final `n`. -/
def count_agreeing (pos_t : List ℚ) (pos_used c c2 n : Nat) : Nat :=
  if _h : c2 < pos_used then
    let d := remove_weekly_wraps (pos_t.getD c2 0 - pos_t.getD c 0)
    count_agreeing pos_t pos_used c (c2 + 1) (if |d| < 0.1 then n + 1 else n)
  else n
termination_by pos_used - c2

/-- Lines 200-216, the outer loop `for(c = 0; c < pos_used; c++)`: for each `c`
the inner loop runs from `c2 = c+1` with `n = 1`, and `if(n > 3) break;`.
Returns the value of `c` when the loop is left. -/
def find_agreed (pos_t : List ℚ) (pos_used c : Nat) : Nat :=
  if _h : c < pos_used then
    if _hq : count_agreeing pos_t pos_used c (c + 1) 1 > 3 then c
    else find_agreed pos_t pos_used (c + 1)
  else c
termination_by pos_used - c

/-- Line 217, `agreed_time = pos_t[c];`: the read of `pos_t` at index `c`.
`pos_t` has `MAX_POS` slots; an index outside them has no defined value. -/
def read_agreed_time (pos_t : List ℚ) (c : Nat) : Option ℚ :=
  if c < MAX_POS then some (pos_t.getD c 0) else none

/-- Lines 235-239, the body of the shift loop: row `c2+1` is copied over row `c2`
in each of the five arrays. -/
def shift_entry (a : PosArrays) (c2 : Nat) : PosArrays :=
  { pos_sv := a.pos_sv.set c2 (a.pos_sv.getD (c2 + 1) 0)
    pos_t := a.pos_t.set c2 (a.pos_t.getD (c2 + 1) 0)
    pos_x := a.pos_x.set c2 (a.pos_x.getD (c2 + 1) 0)
    pos_y := a.pos_y.set c2 (a.pos_y.getD (c2 + 1) 0)
    pos_z := a.pos_z.set c2 (a.pos_z.getD (c2 + 1) 0) }

/-- Lines 234-240, `for(c2 = c; c < pos_used-1; c++) { ... }`: the loop tests and
advances `c`, the body uses `c2`, which stays where it started.  Returns the
arrays and the value of `c` when the loop is left.  (`pos_used - 1` is the
truncated subtraction; for `pos_used = 0` the C condition `c < -1` and the
condition `c < 0` here are both false.) -/
def shift_down (a : PosArrays) (pos_used c2 c : Nat) : PosArrays × Nat :=
  if _h : c < pos_used - 1 then shift_down (shift_entry a c2) pos_used c2 (c + 1)
  else (a, c)
termination_by pos_used - c

/-- What the filter leaves behind: the arrays, `pos_used` and `bad_time_detected`. -/
structure FilterResult where
  pos : PosArrays
  pos_used : Nat
  bad_time_detected : Bool
deriving DecidableEq

/-- Lines 218-242, the removal loop `for(c = 0; c < pos_used; c++)`: an entry
with `fabs(d) < 0.1` is passed over (`continue`); otherwise
`bad_time_detected = 1`, the shift loop runs from `c2 = c` (leaving `c` where
that loop left it), `pos_used--`, and the outer `c++` follows. -/
def drop_bad_times (agreed_time : ℚ) (a : PosArrays) (pos_used : Nat)
    (bad_time_detected : Bool) (c : Nat) : FilterResult :=
  if _h : c < pos_used then
    let d := remove_weekly_wraps (agreed_time - a.pos_t.getD c 0)
    if _hd : |d| < 0.1 then drop_bad_times agreed_time a pos_used bad_time_detected (c + 1)
    else
      drop_bad_times agreed_time (shift_down a pos_used c c).1 (pos_used - 1) true
        ((shift_down a pos_used c c).2 + 1)
  else { pos := a, pos_used := pos_used, bad_time_detected := bad_time_detected }
termination_by (pos_used, pos_used - c)
decreasing_by
  · exact Prod.Lex.right _ (by omega)
  · exact Prod.Lex.left _ _ (by omega)

/-- Lines 200-217: the quorum search from `c = 0`, then `agreed_time = pos_t[c]`. -/
def agreed_time (pos_t : List ℚ) (pos_used : Nat) : Option ℚ :=
  read_agreed_time pos_t (find_agreed pos_t pos_used 0)

/-- Lines 200-242: the quorum search and the read of the agreed time, then the
removal loop from `c = 0` with `bad_time_detected = 0` (line 115).
`none` when the read at line 217 is outside the array. -/
def consensus_filter (a : PosArrays) (pos_used : Nat) : Option FilterResult :=
  match agreed_time a.pos_t pos_used with
  | none => none
  | some agreed_time => some (drop_bad_times agreed_time a pos_used false 0)

/-! ## The candidate table and the solution block, lines 244-302 -/

/-- Lines 48-51: the history arrays `average_lat`, `average_lon`, `average_alt`
and the cursor `average_index`. -/
structure FixHistory where
  average_lat : List ℚ
  average_lon : List ℚ
  average_alt : List ℚ
  average_index : Int
deriving DecidableEq

/-- The state at process start: the static arrays are zero, `average_index = -1`. -/
def FixHistory.initial : FixHistory :=
  { average_lat := List.replicate AVERAGE_LEN 0
    average_lon := List.replicate AVERAGE_LEN 0
    average_alt := List.replicate AVERAGE_LEN 0
    average_index := -1 }

/-- The lines handed to `show_line` from line 244 on, by the `sprintf` format
that built them and the values printed. -/
inductive Line where
  /-- `show_line("")`. -/
  | blank
  /-- Line 244, "Space Vehicle Positions:   %s": the flag selects the text. -/
  | positions_title (bad_time_detected : Bool)
  /-- Line 246, the column header "sv, x, y, z, t". -/
  | positions_header
  /-- Line 248, one candidate row. -/
  | position (sv : Int) (x y z t : ℚ)
  /-- Line 261, "Solution ECEF: ...". -/
  | solution_ecef (x y z t : ℚ)
  /-- Line 263, "Solution LLA:  ...". -/
  | solution_lla (lat_deg lon_deg alt : ℚ)
  /-- Line 295, "Average LLA:   ...". -/
  | average_lla (lat_deg lon_deg alt : ℚ)
deriving DecidableEq

/-- The calls `status_show` makes from line 244 on, in order. -/
inductive Event where
  | show_line (l : Line)
  | solve_location (pos_used : Nat) (pos_x pos_y pos_z pos_t : List ℚ)
  | solve_LatLonAlt (x y z : ℚ)
deriving DecidableEq

/-- The two functions of solve.h, which are not in status.c: what they leave
in their output arguments (`sol_x, sol_y, sol_z, sol_t` and `lat, lon, alt`). -/
structure Solver where
  solve_location : Nat → List ℚ → List ℚ → List ℚ → List ℚ → ℚ × ℚ × ℚ × ℚ
  solve_LatLonAlt : ℚ → ℚ → ℚ → ℚ × ℚ × ℚ

/-- Lines 247-250, `for(c = 0; c < pos_used; c++)`: one row per candidate.
Returns the lines shown and the value of `c` when the loop is left. -/
def show_positions (a : PosArrays) (pos_used c : Nat) : List Event × Nat :=
  if _h : c < pos_used then
    let r := show_positions a pos_used (c + 1)
    (Event.show_line (Line.position (a.pos_sv.getD c 0) (a.pos_x.getD c 0)
        (a.pos_y.getD c 0) (a.pos_z.getD c 0) (a.pos_t.getD c 0)) :: r.1, r.2)
  else ([], c)
termination_by pos_used - c

/-- Lines 251-254, `while(c < 8) { show_line(""); c++; }`. -/
def pad_positions (c : Nat) : List Event :=
  if _h : c < 8 then Event.show_line Line.blank :: pad_positions (c + 1) else []
termination_by 8 - c

/-- Lines 269-273, `for(i = 0; i < AVERAGE_LEN; i++)`: the first fix is written
to every slot. -/
def fill_history (h : FixHistory) (lat lon alt : ℚ) (i : Nat) : FixHistory :=
  if _h : i < AVERAGE_LEN then
    fill_history
      { h with
        average_lat := h.average_lat.set i lat
        average_lon := h.average_lon.set i lon
        average_alt := h.average_alt.set i alt } lat lon alt (i + 1)
  else h
termination_by AVERAGE_LEN - i

/-- Lines 286-290, `for(i = 0; i < AVERAGE_LEN; i++)`: the three running sums. -/
def sum_history (h : FixHistory) (lat lon alt : ℚ) (i : Nat) : ℚ × ℚ × ℚ :=
  if _h : i < AVERAGE_LEN then
    sum_history h (lat + h.average_lat.getD i 0) (lon + h.average_lon.getD i 0)
      (alt + h.average_alt.getD i 0) (i + 1)
  else (lat, lon, alt)
termination_by AVERAGE_LEN - i

/-- Lines 265-293: the smoothing update with the fix `lat, lon, alt`.  Returns
the history and the averaged `lat, lon, alt`. -/
def smooth (h : FixHistory) (lat lon alt : ℚ) : FixHistory × (ℚ × ℚ × ℚ) :=
  -- lines 266-275: is this the first fix?
  let h1 := if h.average_index = -1 then
      { fill_history h lat lon alt 0 with average_index := 0 }
    else h
  -- lines 277-279
  let h2 : FixHistory :=
    { average_lat := h1.average_lat.set h1.average_index.toNat lat
      average_lon := h1.average_lon.set h1.average_index.toNat lon
      average_alt := h1.average_alt.set h1.average_index.toNat alt
      average_index := h1.average_index }
  -- lines 282-283: update and wrap the counter
  let i1 := h2.average_index + 1
  let h3 : FixHistory := { h2 with average_index := if i1 = AVERAGE_LEN then 0 else i1 }
  -- lines 285-293
  let s := sum_history h3 0 0 0 0
  (h3, (s.1 / AVERAGE_LEN, s.2.1 / AVERAGE_LEN, s.2.2 / AVERAGE_LEN))

/-- Lines 256-302, `if(pos_used > 3) { ... } else { ... }`: the calls made, in
order, and the history afterwards. -/
def solution_block (S : Solver) (a : PosArrays) (pos_used : Nat) (h : FixHistory) :
    List Event × FixHistory :=
  if pos_used > 3 then
    let sol := S.solve_location pos_used a.pos_x a.pos_y a.pos_z a.pos_t
    let lla := S.solve_LatLonAlt sol.1 sol.2.1 sol.2.2.1
    let r := smooth h lla.1 lla.2.1 lla.2.2
    ([ Event.show_line Line.blank,
       Event.solve_location pos_used a.pos_x a.pos_y a.pos_z a.pos_t,
       Event.solve_LatLonAlt sol.1 sol.2.1 sol.2.2.1,
       Event.show_line (Line.solution_ecef sol.1 sol.2.1 sol.2.2.1 sol.2.2.2),
       Event.show_line (Line.solution_lla (lla.1 * 180 / PI) (lla.2.1 * 180 / PI) lla.2.2),
       Event.show_line (Line.average_lla (r.2.1 * 180 / PI) (r.2.2.1 * 180 / PI) r.2.2.2) ],
     r.1)
  else
    ([ Event.show_line Line.blank, Event.show_line Line.blank,
       Event.show_line Line.blank, Event.show_line Line.blank ], h)

/-- What one run of lines 200-302 leaves behind. -/
structure TickResult where
  filtered : FilterResult
  history : FixHistory
  events : List Event
deriving DecidableEq

/-- Lines 244-254: the title with the bad-time notice, the column header, one
row per candidate, and blank rows up to 8. -/
def positions_table (r : FilterResult) : List Event :=
  let rows := show_positions r.pos r.pos_used 0
  [ Event.show_line (Line.positions_title r.bad_time_detected),
    Event.show_line Line.positions_header ]
  ++ rows.1 ++ pad_positions rows.2

/-- Lines 244-302: the candidate table, then the solution block, on what the
filter left. -/
def show_filtered (S : Solver) (r : FilterResult) (h : FixHistory) : TickResult :=
  let blk := solution_block S r.pos r.pos_used h
  { filtered := r
    history := blk.2
    events := positions_table r ++ blk.1 }

/-- Lines 200-302 of `status_show`, from the candidate arrays the collector loop
filled.  `none` when the read at line 217 is outside the array. -/
def status_show_tail (S : Solver) (a : PosArrays) (pos_used : Nat) (h : FixHistory) :
    Option TickResult :=
  match consensus_filter a pos_used with
  | none => none
  | some r => some (show_filtered S r h)

/-- The `show_line` calls among the events. -/
def shown_lines (es : List Event) : List Line :=
  es.filterMap (fun e => match e with
    | Event.show_line l => some l
    | _ => none)

/-- Whether an event is a call of `solve_location`. -/
def Event.is_solve_location : Event → Bool
  | Event.solve_location _ _ _ _ _ => true
  | _ => false

/-! ## The filter as the specification words it -/

/-- The difference on the week ring in the words of the specification:
`d = a-b; if d > W/2 then d -= W; if d < -W/2 then d += W`, with `W = 604800`. -/
def spec_wrap_difference (a b : ℚ) : ℚ :=
  let d := a - b
  let d1 := if d > 604800 / 2 then d - 604800 else d
  if d1 < -(604800 / 2) then d1 + 604800 else d1

/-- The support count in the words of the specification: 1 plus the number of
the other candidates `j` of the list, before and after `i`, with
`|diff t_j t_i| < 0.1`, for a difference function `diff`. -/
def spec_support (diff : ℚ → ℚ → ℚ) (pos_t : List ℚ) (pos_used i : Nat) : Nat :=
  1 + ((List.range pos_used).filter
        (fun j => decide (j ≠ i) && decide (|diff (pos_t.getD j 0) (pos_t.getD i 0)| < 0.1))).length

/-- The survivors in the words of the specification: every candidate whose
difference from the agreed time has `|d| < 0.1`, in the original order. -/
def spec_survivors (diff : ℚ → ℚ → ℚ) (agreed_time : ℚ) (cs : List Candidate) :
    List Candidate :=
  cs.filter (fun k => decide (|diff agreed_time k.t| < 0.1))

/-! ## Concrete inputs -/

/-- Five candidates, the second one 400 s away from the other four. -/
def outlier_second : PosArrays :=
  { pos_sv := [1, 2, 3, 4, 5, 0, 0, 0, 0, 0]
    pos_x := [10, 20, 30, 40, 50, 0, 0, 0, 0, 0]
    pos_y := [0, 0, 0, 0, 0, 0, 0, 0, 0, 0]
    pos_z := [0, 0, 0, 0, 0, 0, 0, 0, 0, 0]
    pos_t := [100, 500, 100.05, 100.02, 100.03, 0, 0, 0, 0, 0] }

/-- Six candidates, the last two far away from the first four. -/
def two_outliers_last : PosArrays :=
  { pos_sv := [1, 2, 3, 4, 5, 6, 0, 0, 0, 0]
    pos_x := [10, 20, 30, 40, 50, 60, 0, 0, 0, 0]
    pos_y := [0, 0, 0, 0, 0, 0, 0, 0, 0, 0]
    pos_z := [0, 0, 0, 0, 0, 0, 0, 0, 0, 0]
    pos_t := [100, 100.05, 100.02, 100.03, 500, 600, 0, 0, 0, 0] }

/-- One candidate at time 100; the other slots hold 0. -/
def single_candidate : PosArrays :=
  { pos_sv := [7, 0, 0, 0, 0, 0, 0, 0, 0, 0]
    pos_x := [10, 0, 0, 0, 0, 0, 0, 0, 0, 0]
    pos_y := [20, 0, 0, 0, 0, 0, 0, 0, 0, 0]
    pos_z := [30, 0, 0, 0, 0, 0, 0, 0, 0, 0]
    pos_t := [100, 0, 0, 0, 0, 0, 0, 0, 0, 0] }

/-- Ten candidates (the arrays are full), one second apart from each other. -/
def full_no_quorum : PosArrays :=
  { pos_sv := [1, 2, 3, 4, 5, 6, 7, 8, 9, 10]
    pos_x := [0, 0, 0, 0, 0, 0, 0, 0, 0, 0]
    pos_y := [0, 0, 0, 0, 0, 0, 0, 0, 0, 0]
    pos_z := [0, 0, 0, 0, 0, 0, 0, 0, 0, 0]
    pos_t := [0, 1, 2, 3, 4, 5, 6, 7, 8, 9] }

/-- Four candidates within 0.07 s of the week boundary, two on each side. -/
def across_week_boundary : PosArrays :=
  { pos_sv := [1, 2, 3, 4, 0, 0, 0, 0, 0, 0]
    pos_x := [10, 20, 30, 40, 0, 0, 0, 0, 0, 0]
    pos_y := [0, 0, 0, 0, 0, 0, 0, 0, 0, 0]
    pos_z := [0, 0, 0, 0, 0, 0, 0, 0, 0, 0]
    pos_t := [604799.95, 604799.97, 0.01, 0.02, 0, 0, 0, 0, 0, 0] }

/-- The five times of the example in the specification, 0 in the other slots. -/
def spec_example : PosArrays :=
  { pos_sv := [1, 2, 3, 4, 5, 0, 0, 0, 0, 0]
    pos_x := [10, 20, 30, 40, 50, 0, 0, 0, 0, 0]
    pos_y := [0, 0, 0, 0, 0, 0, 0, 0, 0, 0]
    pos_z := [0, 0, 0, 0, 0, 0, 0, 0, 0, 0]
    pos_t := [100, 100.05, 100.02, 599999.9, 500, 0, 0, 0, 0, 0] }

/-- The example with the fourth time at 100.07, within 0.1 s of the first. -/
def four_close_one_far : PosArrays :=
  { pos_sv := [1, 2, 3, 4, 5, 0, 0, 0, 0, 0]
    pos_x := [10, 20, 30, 40, 50, 0, 0, 0, 0, 0]
    pos_y := [0, 0, 0, 0, 0, 0, 0, 0, 0, 0]
    pos_z := [0, 0, 0, 0, 0, 0, 0, 0, 0, 0]
    pos_t := [100, 100.05, 100.02, 100.07, 500, 0, 0, 0, 0, 0] }

/-- A solver that answers the same solution and the same geodetic fix to every call. -/
def constant_solver : Solver :=
  { solve_location := fun _ _ _ _ _ => (1, 2, 3, 4)
    solve_LatLonAlt := fun _ _ _ => (10, 20, 30) }

/-- What the loop of lines 269-273 does to one history array: `v` is written to
the slots `i, i+1, ..` below `AVERAGE_LEN`. -/
def fill_slots (l : List ℚ) (v : ℚ) (i : Nat) : List ℚ :=
  if _h : i < AVERAGE_LEN then fill_slots (l.set i v) v (i + 1) else l
termination_by AVERAGE_LEN - i

/-- What the loop of lines 286-290 does with one history array: the slots
`i, i+1, ..` below `AVERAGE_LEN` are added to `acc`. -/
def sum_slots (l : List ℚ) (acc : ℚ) (i : Nat) : ℚ :=
  if _h : i < AVERAGE_LEN then sum_slots l (acc + l.getD i 0) (i + 1) else acc
termination_by AVERAGE_LEN - i

/-- The index used by the writes of lines 277-279: `average_index` after the
first-fix block of lines 266-275, which sets it to 0 when it was -1. -/
def smooth_write_index (h : FixHistory) : Int :=
  if h.average_index = -1 then 0 else h.average_index

/-- The history after consecutive smoothing updates with the fixes `fs`, in order. -/
def smooth_all (h : FixHistory) (fs : List (ℚ × ℚ × ℚ)) : FixHistory :=
  fs.foldl (fun h f => (smooth h f.1 f.2.1 f.2.2).1) h

/-- The last 21 entries of a list of fixes (all of them when there are fewer). -/
def last_fixes (fs : List (ℚ × ℚ × ℚ)) : List (ℚ × ℚ × ℚ) :=
  fs.drop (fs.length - AVERAGE_LEN)

/-- The arithmetic mean, per component, of 21 fixes: each sum divided by `AVERAGE_LEN`. -/
def mean_fix (fs : List (ℚ × ℚ × ℚ)) : ℚ × ℚ × ℚ :=
  ((fs.map (fun f => f.1)).sum / AVERAGE_LEN,
   (fs.map (fun f => f.2.1)).sum / AVERAGE_LEN,
   (fs.map (fun f => f.2.2)).sum / AVERAGE_LEN)

/-- What consecutive smoothing updates do to one history array and the cursor,
once the history is initialised: each value is written at the cursor `k`, which
then advances and wraps at `AVERAGE_LEN`. -/
def ring_write (l : List ℚ) (k : Nat) : List ℚ → List ℚ × Nat
  | [] => (l, k)
  | v :: vs => ring_write (l.set k v) (if k + 1 = AVERAGE_LEN then 0 else k + 1) vs

/-- One tick as the solution block sees it: the solver's answers, and the arrays
and `pos_used` the filter left. -/
structure Tick where
  S : Solver
  pos : PosArrays
  pos_used : Nat

/-- The geodetic fix of a tick: `lat, lon, alt` as lines 258-259 compute them. -/
def Tick.fix (t : Tick) : ℚ × ℚ × ℚ :=
  let sol := t.S.solve_location t.pos_used t.pos.pos_x t.pos.pos_y t.pos.pos_z t.pos.pos_t
  t.S.solve_LatLonAlt sol.1 sol.2.1 sol.2.2.1

/-- The fix history after a sequence of ticks, in order, each running the
solution block of lines 256-302. -/
def history_after (h : FixHistory) (ts : List Tick) : FixHistory :=
  ts.foldl (fun h t => (solution_block t.S t.pos t.pos_used h).2) h

/-- The shape every reachable fix history has: three arrays of `AVERAGE_LEN`
slots, and `average_index` either -1 or an index into them. -/
def FixHistory.Valid (h : FixHistory) : Prop :=
  h.average_lat.length = AVERAGE_LEN ∧ h.average_lon.length = AVERAGE_LEN ∧
  h.average_alt.length = AVERAGE_LEN ∧
  (h.average_index = -1 ∨ (0 ≤ h.average_index ∧ h.average_index < AVERAGE_LEN))

/-- Twenty-four fixes: latitude 0, 1, .., 23, longitude twice the latitude,
altitude 100. -/
def ramp_fixes : List (ℚ × ℚ × ℚ) :=
  (List.range 24).map (fun i => ((i : ℚ), 2 * (i : ℚ), 100))

/-! ## The filter loops with their iteration counts -/

/-- The loop `count_agreeing` (lines 202-212) returning, next to `n`, the number
of times its body ran. -/
def count_agreeing_counted (pos_t : List ℚ) (pos_used c c2 n : Nat) : Nat × Nat :=
  if _h : c2 < pos_used then
    let d := remove_weekly_wraps (pos_t.getD c2 0 - pos_t.getD c 0)
    let r := count_agreeing_counted pos_t pos_used c (c2 + 1) (if |d| < 0.1 then n + 1 else n)
    (r.1, r.2 + 1)
  else (n, 0)
termination_by pos_used - c2

/-- The loop `find_agreed` (lines 200-216) returning, next to `c`, the number of
times its body ran (the iteration left by `break` included). -/
def find_agreed_counted (pos_t : List ℚ) (pos_used c : Nat) : Nat × Nat :=
  if _h : c < pos_used then
    if _hq : count_agreeing pos_t pos_used c (c + 1) 1 > 3 then (c, 1)
    else
      let r := find_agreed_counted pos_t pos_used (c + 1)
      (r.1, r.2 + 1)
  else (c, 0)
termination_by pos_used - c

/-- The loop `shift_down` (lines 234-240) returning, next to its result, the
number of times its body ran. -/
def shift_down_counted (a : PosArrays) (pos_used c2 c : Nat) : (PosArrays × Nat) × Nat :=
  if _h : c < pos_used - 1 then
    let r := shift_down_counted (shift_entry a c2) pos_used c2 (c + 1)
    (r.1, r.2 + 1)
  else ((a, c), 0)
termination_by pos_used - c

/-- The loop `drop_bad_times` (lines 218-242) returning, next to its result, the
values of `c` for which its body ran, in order: the indices whose time was
tested against the agreed time. -/
def drop_bad_times_traced (agreed_time : ℚ) (a : PosArrays) (pos_used : Nat)
    (bad_time_detected : Bool) (c : Nat) : FilterResult × List Nat :=
  if _h : c < pos_used then
    let d := remove_weekly_wraps (agreed_time - a.pos_t.getD c 0)
    if _hd : |d| < 0.1 then
      let r := drop_bad_times_traced agreed_time a pos_used bad_time_detected (c + 1)
      (r.1, c :: r.2)
    else
      let r := drop_bad_times_traced agreed_time (shift_down a pos_used c c).1 (pos_used - 1)
        true ((shift_down a pos_used c c).2 + 1)
      (r.1, c :: r.2)
  else ({ pos := a, pos_used := pos_used, bad_time_detected := bad_time_detected }, [])
termination_by (pos_used, pos_used - c)
decreasing_by
  · exact Prod.Lex.right _ (by omega)
  · exact Prod.Lex.left _ _ (by omega)

/-! ## The collector loop, lines 169-198 -/

/-- A C `double` in the collector loop, where the values come straight from
functions outside status.c: a number (a rational, exact), an infinity, or
not-a-number. -/
inductive Double where
  | num (q : ℚ)
  | pos_inf
  | neg_inf
  | nan
deriving DecidableEq

/-- The C comparison `d < q` of a double with a number: false for NaN. -/
def Double.lt_num : Double → ℚ → Bool
  | Double.num x, q => decide (x < q)
  | Double.neg_inf, _ => true
  | Double.pos_inf, _ => false
  | Double.nan, _ => false

/-- The C comparison `d >= q` of a double with a number: false for NaN. -/
def Double.ge_num : Double → ℚ → Bool
  | Double.num x, q => decide (x ≥ q)
  | Double.pos_inf, _ => true
  | Double.neg_inf, _ => false
  | Double.nan, _ => false

/-- Whether a double is a time of the week: a number `t` with `0 <= t < 604800`. -/
def Double.in_week : Double → Bool
  | Double.num x => decide (0 ≤ x ∧ x < 604800)
  | _ => false

/-- The arrays of lines 114 and 117 as the collector loop fills them: `pos_sv` of
`int`, the other four of `double`. -/
structure CollectorArrays where
  pos_sv : List Int
  pos_x : List Double
  pos_y : List Double
  pos_z : List Double
  pos_t : List Double
deriving DecidableEq

/-- The functions of channel.h and nav.h that the collector loop calls, none of
which is in status.c, as what they answer during one tick; `DROP_LOW_POWER` is
the macro tested at line 172, defined (or not) outside status.c.  The two
`nav_calc_` functions answer their return value and, for each output pointer,
the double they stored through it, if any. -/
structure Receiver where
  channel_get_count : Int
  channel_get_sv_id : Nat → Int
  channel_get_power : Nat → Nat × Nat × Nat
  channel_get_nco_phase : Nat → ℚ
  channel_get_nco_limit : ℚ
  nav_week_num : Int → Int
  nav_ms_of_frame : Int → Int
  nav_subframe_of_week : Int → Int
  nav_calc_corrected_time : Int → ℚ → Bool × Option Double
  nav_calc_position : Int → Double → Bool × Option Double × Option Double × Option Double
  DROP_LOW_POWER : Bool

/-- The state of the collector loop: the five arrays, `pos_used`, and the indices
at which an array was written or handed out as an output pointer, in order. -/
structure Collected where
  pos : CollectorArrays
  pos_used : Nat
  writes : List Nat
deriving DecidableEq

/-- What a call leaves in the slot `i` it was given a pointer to. -/
def store_through (l : List Double) (i : Nat) : Option Double → List Double
  | none => l
  | some v => l.set i v

/-- Lines 187-189: `raw_time` of channel `c`. -/
def raw_time (R : Receiver) (c : Nat) : ℚ :=
  (((R.nav_ms_of_frame (R.channel_get_sv_id c) : ℚ)
      + R.channel_get_nco_phase c / (R.channel_get_nco_limit + 1.0))
    + (R.nav_subframe_of_week (R.channel_get_sv_id c) : ℚ) * 6000.0) / 1000

/-- The value of `pos_t[pos_used]` after the call of `nav_calc_corrected_time`
at line 190, which was handed `pos_t+pos_used`. -/
def corrected_time (R : Receiver) (s : Collected) (c : Nat) : Double :=
  (store_through s.pos.pos_t s.pos_used
    (R.nav_calc_corrected_time (R.channel_get_sv_id c) (raw_time R c)).2).getD s.pos_used
      (Double.num 0)

/-- Lines 170-197: the body of the collector loop for channel `c`; each
`continue` leaves the body with the state reached so far.  Line 192 is the test
`pos_t[pos_used] < 0 || pos_t[pos_used] >= 7*24*3600` on a double. -/
def collect_channel (R : Receiver) (s : Collected) (c : Nat) : Collected :=
  if R.DROP_LOW_POWER = true ∧ (R.channel_get_power c).2.1 < 1000000 then s
  else
    let sv := R.channel_get_sv_id c
    if sv = 0 then s
    else if R.nav_week_num sv < 0 then s
    else if R.nav_ms_of_frame sv < 0 then s
    else
      let ct := R.nav_calc_corrected_time sv (raw_time R c)
      let s1 : Collected :=
        { pos := { s.pos with pos_t := store_through s.pos.pos_t s.pos_used ct.2 }
          pos_used := s.pos_used
          writes := s.writes ++ [s.pos_used] }
      if ct.1 = false then s1
      else if (s1.pos.pos_t.getD s.pos_used (Double.num 0)).lt_num 0 = true ∨
          (s1.pos.pos_t.getD s.pos_used (Double.num 0)).ge_num (7*24*3600) = true then s1
      else
        let cp := R.nav_calc_position sv (s1.pos.pos_t.getD s.pos_used (Double.num 0))
        let s2 : Collected :=
          { pos :=
              { s1.pos with
                pos_x := store_through s1.pos.pos_x s.pos_used cp.2.1
                pos_y := store_through s1.pos.pos_y s.pos_used cp.2.2.1
                pos_z := store_through s1.pos.pos_z s.pos_used cp.2.2.2 }
            pos_used := s.pos_used
            writes := s1.writes ++ [s.pos_used, s.pos_used, s.pos_used] }
        if cp.1 = false then s2
        else
          { pos := { s2.pos with pos_sv := s2.pos.pos_sv.set s.pos_used sv }
            pos_used := s.pos_used + 1
            writes := s2.writes ++ [s.pos_used] }

/-- Lines 169-198, `for(c = 0; c < channel_get_count() && pos_used < MAX_POS; c++)`. -/
def collect (R : Receiver) (s : Collected) (c : Nat) : Collected :=
  if _h : (c : Int) < R.channel_get_count ∧ s.pos_used < MAX_POS then
    collect R (collect_channel R s c) (c + 1)
  else s
termination_by (R.channel_get_count - c).toNat
decreasing_by omega

/-- Ten slots per array, all holding 0: the arrays before the collector loop. -/
def blank_arrays : CollectorArrays :=
  { pos_sv := List.replicate 10 0
    pos_x := List.replicate 10 (Double.num 0)
    pos_y := List.replicate 10 (Double.num 0)
    pos_z := List.replicate 10 (Double.num 0)
    pos_t := List.replicate 10 (Double.num 0) }

/-- One channel, tracking sv 1 with week number and ms-of-frame known;
`nav_calc_corrected_time` returns 1 after storing NaN through its pointer, and
`nav_calc_position` returns 1 after storing the position (1, 2, 3). -/
def nan_receiver : Receiver :=
  { channel_get_count := 1
    channel_get_sv_id := fun _ => 1
    channel_get_power := fun _ => (0, 2000000, 0)
    channel_get_nco_phase := fun _ => 0
    channel_get_nco_limit := 99
    nav_week_num := fun _ => 0
    nav_ms_of_frame := fun _ => 0
    nav_subframe_of_week := fun _ => 0
    nav_calc_corrected_time := fun _ _ => (true, some Double.nan)
    nav_calc_position := fun _ _ =>
      (true, some (Double.num 1), some (Double.num 2), some (Double.num 3))
    DROP_LOW_POWER := false }

/-! ## Loop lemmas -/

theorem shift_down_snd (a : PosArrays) (pos_used c2 c : Nat) :
    (shift_down a pos_used c2 c).2 = max c (pos_used - 1) := by
  generalize hk : pos_used - c = k
  induction k using Nat.strong_induction_on generalizing a c with
  | _ k ih =>
    rw [shift_down]
    split
    · rw [ih (pos_used - (c + 1)) (by omega) (shift_entry a c2) (c + 1) rfl]
      omega
    · simp only
      omega

theorem drop_bad_times_done (g : ℚ) (a : PosArrays) (n : Nat) (b : Bool) (c : Nat)
    (h : ¬ c < n) :
    drop_bad_times g a n b c = { pos := a, pos_used := n, bad_time_detected := b } := by
  rw [drop_bad_times, dif_neg h]

theorem drop_bad_times_keep (g : ℚ) (a : PosArrays) (n : Nat) (b : Bool) (c : Nat)
    (h : c < n) (hd : |remove_weekly_wraps (g - a.pos_t.getD c 0)| < 0.1) :
    drop_bad_times g a n b c = drop_bad_times g a n b (c + 1) := by
  rw [drop_bad_times, dif_pos h]
  exact dif_pos hd

theorem drop_bad_times_drop (g : ℚ) (a : PosArrays) (n : Nat) (b : Bool) (c : Nat)
    (h : c < n) (hd : ¬ |remove_weekly_wraps (g - a.pos_t.getD c 0)| < 0.1) :
    drop_bad_times g a n b c =
      { pos := (shift_down a n c c).1, pos_used := n - 1, bad_time_detected := true } := by
  rw [drop_bad_times, dif_pos h]
  refine (dif_neg hd).trans ?_
  apply drop_bad_times_done
  rw [shift_down_snd]
  omega

theorem drop_bad_times_count_flag (g : ℚ) (a : PosArrays) (n : Nat) (b : Bool) (c : Nat) :
    (drop_bad_times g a n b c).pos_used ≤ n ∧
      ((drop_bad_times g a n b c).bad_time_detected = true ↔
        (b = true ∨ (drop_bad_times g a n b c).pos_used < n)) := by
  generalize hk : n - c = k
  induction k using Nat.strong_induction_on generalizing c with
  | _ k ih =>
    by_cases h : c < n
    · by_cases hd : |remove_weekly_wraps (g - a.pos_t.getD c 0)| < 0.1
      · rw [drop_bad_times_keep g a n b c h hd]
        exact ih (n - (c + 1)) (by omega) (c + 1) rfl
      · rw [drop_bad_times_drop g a n b c h hd]
        simp only [true_iff]
        constructor
        · omega
        · right; omega
    · rw [drop_bad_times_done g a n b c h]
      simp

/-! ## The claims -/

/-- C6. For every candidate list (the empty one included) and whatever value the
agreed time has, the survivor count the removal loop leaves is at most the input
count, and `bad_time_detected` is set if and only if the survivor count is
strictly smaller than the input count; the filter is that removal loop run with
the agreed time read at line 217; on an empty list the filter returns the arrays
as they were, with count 0, no candidate and the flag clear. -/
theorem C6_count_and_flag (g : ℚ) (a : PosArrays) (pos_used : Nat) :
    (drop_bad_times g a pos_used false 0).pos_used ≤ pos_used ∧
    ((drop_bad_times g a pos_used false 0).bad_time_detected = true ↔
      (drop_bad_times g a pos_used false 0).pos_used < pos_used) ∧
    consensus_filter a pos_used =
      (agreed_time a.pos_t pos_used).map (fun t => drop_bad_times t a pos_used false 0) ∧
    consensus_filter a 0 = some { pos := a, pos_used := 0, bad_time_detected := false } ∧
    candidates a 0 = [] := by
  have h := drop_bad_times_count_flag g a pos_used false 0
  refine ⟨h.1, ?_, ?_, ?_, rfl⟩
  · simpa using h.2
  · unfold consensus_filter
    cases agreed_time a.pos_t pos_used <;> rfl
  · simp [consensus_filter, agreed_time, read_agreed_time, find_agreed, MAX_POS,
      drop_bad_times_done]

/-- C1 (evaluation of the code). The removal loop stops after the first entry it
removes and its shift loop copies one row only.  On `outlier_second` the agreed
time is 100; the filter leaves rows 1, 3, 3, 4: the candidate at 100.05 twice,
and the candidate at 100.03, which is within tolerance, is gone.  On
`two_outliers_last` the agreed time is 100 and the candidate at 600, which is
outside tolerance, survives. -/
theorem C1_survivors_on_outliers :
    agreed_time outlier_second.pos_t 5 = some 100 ∧
    (consensus_filter outlier_second 5).map (fun r => candidates r.pos r.pos_used) =
      some [⟨1, 10, 0, 0, 100⟩, ⟨3, 30, 0, 0, 100.05⟩, ⟨3, 30, 0, 0, 100.05⟩,
            ⟨4, 40, 0, 0, 100.02⟩] ∧
    spec_survivors code_difference 100 (candidates outlier_second 5) =
      [⟨1, 10, 0, 0, 100⟩, ⟨3, 30, 0, 0, 100.05⟩, ⟨4, 40, 0, 0, 100.02⟩,
       ⟨5, 50, 0, 0, 100.03⟩] ∧
    agreed_time two_outliers_last.pos_t 6 = some 100 ∧
    (consensus_filter two_outliers_last 6).map (fun r => candidates r.pos r.pos_used) =
      some [⟨1, 10, 0, 0, 100⟩, ⟨2, 20, 0, 0, 100.05⟩, ⟨3, 30, 0, 0, 100.02⟩,
            ⟨4, 40, 0, 0, 100.03⟩, ⟨6, 60, 0, 0, 600⟩] ∧
    spec_survivors code_difference 100 (candidates two_outliers_last 6) =
      [⟨1, 10, 0, 0, 100⟩, ⟨2, 20, 0, 0, 100.05⟩, ⟨3, 30, 0, 0, 100.02⟩,
       ⟨4, 40, 0, 0, 100.03⟩] := by
  decide!

/-- C2 (evaluation of the code). When no candidate reaches the quorum the loop
of lines 200-216 is left with `c = pos_used`, and line 217 reads `pos_t[pos_used]`,
not the last candidate `pos_t[pos_used - 1]`: for one candidate the index read is
1, a slot after the list; for ten candidates it is 10, outside the array, so the
agreed time and the result of the filter are undefined. -/
theorem C2_no_quorum_reads_past_list :
    find_agreed single_candidate.pos_t 1 0 = 1 ∧
    agreed_time single_candidate.pos_t 1 = some 0 ∧
    find_agreed full_no_quorum.pos_t 10 0 = 10 ∧
    agreed_time full_no_quorum.pos_t 10 = none ∧
    consensus_filter full_no_quorum 10 = none := by
  decide!

/-- C4 (evaluation of the code). For `a = 604799.95` and `b = 0.01`, 0.06 s apart
across the week boundary, the code's adjustment gives `302399.94` where the
circular difference is `-0.06`; in the quorum loop the first candidate of
`across_week_boundary` gets support 2 (circular difference: 4), and the removal
loop with agreed time 604799.95 drops the candidate at 0.01. -/
theorem C4_wrap_adjusts_by_half_week :
    remove_weekly_wraps (604799.95 - 0.01) = 302399.94 ∧
    spec_wrap_difference 604799.95 0.01 = -0.06 ∧
    ¬ |remove_weekly_wraps (604799.95 - 0.01)| < 0.1 ∧
    count_agreeing across_week_boundary.pos_t 4 0 1 1 = 2 ∧
    spec_support spec_wrap_difference across_week_boundary.pos_t 4 0 = 4 ∧
    (drop_bad_times 604799.95 across_week_boundary 4 false 0).pos_used = 3 ∧
    (drop_bad_times 604799.95 across_week_boundary 4 false 0).bad_time_detected = true ∧
    spec_survivors spec_wrap_difference 604799.95 (candidates across_week_boundary 4) =
      candidates across_week_boundary 4 := by
  decide!

/-- C5 (evaluation of the code). On `outlier_second` the filter leaves rows
1, 3, 3, 4: the candidate with sv 3 occurs twice though it occurs once in the
input, and the survivor list is not a sub-sequence of the input list. -/
theorem C5_survivors_not_sublist :
    (consensus_filter outlier_second 5).map (fun r => candidates r.pos r.pos_used) =
      some [⟨1, 10, 0, 0, 100⟩, ⟨3, 30, 0, 0, 100.05⟩, ⟨3, 30, 0, 0, 100.05⟩,
            ⟨4, 40, 0, 0, 100.02⟩] ∧
    List.count (⟨3, 30, 0, 0, 100.05⟩ : Candidate) (candidates outlier_second 5) = 1 ∧
    ¬ List.Sublist
        [⟨1, 10, 0, 0, 100⟩, ⟨3, 30, 0, 0, 100.05⟩, ⟨3, 30, 0, 0, 100.05⟩,
          (⟨4, 40, 0, 0, 100.02⟩ : Candidate)]
        (candidates outlier_second 5) := by
  decide!

/-- C7 (evaluation of the code). One candidate at time 100 with 0 in the next
slot of `pos_t`: no quorum, the agreed time is read from that next slot, the
candidate is 100 s away from it and is removed; the filter leaves no candidate
and sets the flag. -/
theorem C7_single_candidate_dropped :
    consensus_filter single_candidate 1 =
      some { pos := single_candidate, pos_used := 0, bad_time_detected := true } ∧
    candidates single_candidate 0 = [] := by
  decide!

/-- No time is within tolerance of both 100 and 599999.9 under the adjustment
of `status_show`. -/
theorem no_time_near_both (g : ℚ) (h0 : |remove_weekly_wraps (g - 100)| < 0.1)
    (h3 : |remove_weekly_wraps (g - 599999.9)| < 0.1) : False := by
  unfold remove_weekly_wraps at h0 h3
  rw [abs_lt] at h0 h3
  obtain ⟨h0a, h0b⟩ := h0
  obtain ⟨h3a, h3b⟩ := h3
  norm_num at h0a h0b h3a h3b
  split_ifs at h0a h0b h3a h3b <;> linarith

/-- Whatever the agreed time, the removal loop does not turn the example of the
specification into its first four candidates. -/
theorem spec_example_never_first_four (g : ℚ) :
    candidates (drop_bad_times g spec_example 5 false 0).pos
        (drop_bad_times g spec_example 5 false 0).pos_used ≠
      [⟨1, 10, 0, 0, 100⟩, ⟨2, 20, 0, 0, 100.05⟩, ⟨3, 30, 0, 0, 100.02⟩,
       ⟨4, 40, 0, 0, 599999.9⟩] := by
  have e0 : spec_example.pos_t.getD 0 0 = 100 := rfl
  have e1 : spec_example.pos_t.getD 1 0 = 100.05 := rfl
  have e2 : spec_example.pos_t.getD 2 0 = 100.02 := rfl
  have e3 : spec_example.pos_t.getD 3 0 = 599999.9 := rfl
  by_cases h0 : |remove_weekly_wraps (g - 100)| < 0.1
  · rw [drop_bad_times_keep g _ 5 false 0 (by norm_num) (by rw [e0]; exact h0)]
    by_cases h1 : |remove_weekly_wraps (g - 100.05)| < 0.1
    · rw [drop_bad_times_keep g _ 5 false 1 (by norm_num) (by rw [e1]; exact h1)]
      by_cases h2 : |remove_weekly_wraps (g - 100.02)| < 0.1
      · rw [drop_bad_times_keep g _ 5 false 2 (by norm_num) (by rw [e2]; exact h2)]
        by_cases h3 : |remove_weekly_wraps (g - 599999.9)| < 0.1
        · exact (no_time_near_both g h0 h3).elim
        · rw [drop_bad_times_drop g _ 5 false 3 (by norm_num) (by rw [e3]; exact h3)]
          decide!
      · rw [drop_bad_times_drop g _ 5 false 2 (by norm_num) (by rw [e2]; exact h2)]
        decide!
    · rw [drop_bad_times_drop g _ 5 false 1 (by norm_num) (by rw [e1]; exact h1)]
      decide!
  · rw [drop_bad_times_drop g _ 5 false 0 (by norm_num) (by rw [e0]; exact h0)]
    decide!

/-- C8 (as stated, on the code). With the times of the specification's example
no candidate reaches the quorum; the agreed time is read from slot 5, after the
list.  With 0 in that slot the filter leaves the candidates at 100.05, 100.05,
100.02 and 599999.9, and whatever the slot holds the filter does not leave the
four candidates at 100.00, 100.05, 100.02, 599999.9. -/
theorem C8_spec_example_fails :
    find_agreed spec_example.pos_t 5 0 = 5 ∧
    (consensus_filter spec_example 5).map (fun r => candidates r.pos r.pos_used) =
      some [⟨2, 20, 0, 0, 100.05⟩, ⟨2, 20, 0, 0, 100.05⟩, ⟨3, 30, 0, 0, 100.02⟩,
            ⟨4, 40, 0, 0, 599999.9⟩] ∧
    ∀ g : ℚ,
      candidates (drop_bad_times g spec_example 5 false 0).pos
          (drop_bad_times g spec_example 5 false 0).pos_used ≠
        [⟨1, 10, 0, 0, 100⟩, ⟨2, 20, 0, 0, 100.05⟩, ⟨3, 30, 0, 0, 100.02⟩,
         ⟨4, 40, 0, 0, 599999.9⟩] :=
  ⟨by decide!, by decide!, spec_example_never_first_four⟩

/-- C8 (amended). For the five candidates with times 100.00, 100.05, 100.02,
100.07, 500.0 the first candidate reaches the quorum, the agreed time is 100,
and the filter keeps the four candidates at 100.00, 100.05, 100.02, 100.07 (the
arrays are untouched), drops the one at 500.0 and sets the flag.  With 599999.9 as
fourth time the support counts are 3, 2, 1, 1, 1 in the code and 3, 3, 3, 1, 1
with the circular difference of the specification: none is above 3. -/
theorem C8_four_close_one_far :
    agreed_time four_close_one_far.pos_t 5 = some 100 ∧
    consensus_filter four_close_one_far 5 =
      some { pos := four_close_one_far, pos_used := 4, bad_time_detected := true } ∧
    candidates four_close_one_far 4 =
      [⟨1, 10, 0, 0, 100⟩, ⟨2, 20, 0, 0, 100.05⟩, ⟨3, 30, 0, 0, 100.02⟩,
       ⟨4, 40, 0, 0, 100.07⟩] ∧
    (List.range 5).map (fun i => count_agreeing spec_example.pos_t 5 i (i + 1) 1) =
      [3, 2, 1, 1, 1] ∧
    (List.range 5).map (spec_support spec_wrap_difference spec_example.pos_t 5) =
      [3, 3, 3, 1, 1] := by
  decide!

theorem remove_weekly_wraps_small (d : ℚ) (hd : |d| < 0.1) : remove_weekly_wraps d = d := by
  rw [abs_lt] at hd
  obtain ⟨h1, h2⟩ := hd
  unfold remove_weekly_wraps
  norm_num at h1 h2 ⊢
  have h3 : ¬ d > 302400 := by
    intro h
    linarith
  rw [if_neg h3, if_neg]
  intro h
  linarith

theorem count_agreeing_all (pos_t : List ℚ) (pos_used c c2 n : Nat)
    (hall : ∀ j, j < pos_used → |pos_t.getD j 0 - pos_t.getD c 0| < 0.1) :
    count_agreeing pos_t pos_used c c2 n = n + (pos_used - c2) := by
  generalize hk : pos_used - c2 = k
  induction k generalizing c2 n with
  | zero => rw [count_agreeing, dif_neg (by omega)]; rfl
  | succ k ih =>
    have hj := hall c2 (by omega)
    rw [count_agreeing, dif_pos (by omega)]
    simp only
    rw [remove_weekly_wraps_small _ hj, if_pos hj, ih (c2 + 1) (n + 1) (by omega)]
    omega

theorem drop_bad_times_all_kept (g : ℚ) (a : PosArrays) (n : Nat) (b : Bool) (c : Nat)
    (hall : ∀ j, j < n → |g - a.pos_t.getD j 0| < 0.1) :
    drop_bad_times g a n b c = { pos := a, pos_used := n, bad_time_detected := b } := by
  generalize hk : n - c = k
  induction k generalizing c with
  | zero => exact drop_bad_times_done g a n b c (by omega)
  | succ k ih =>
    have hj := hall c (by omega)
    rw [drop_bad_times_keep g a n b c (by omega)
      (by rw [remove_weekly_wraps_small _ hj]; exact hj)]
    exact ih (c + 1) (by omega)

/-! ## The events of the table and of the solution block -/

theorem show_positions_no_solve (a : PosArrays) (pos_used c : Nat) :
    (show_positions a pos_used c).1.filter Event.is_solve_location = [] := by
  generalize hk : pos_used - c = k
  induction k generalizing c with
  | zero => rw [show_positions, dif_neg (by omega)]; rfl
  | succ k ih =>
    rw [show_positions, dif_pos (by omega)]
    simp only
    rw [List.filter_cons_of_neg (by simp [Event.is_solve_location])]
    exact ih (c + 1) (by omega)

theorem pad_positions_no_solve (c : Nat) :
    (pad_positions c).filter Event.is_solve_location = [] := by
  generalize hk : 8 - c = k
  induction k generalizing c with
  | zero => rw [pad_positions, dif_neg (by omega)]; rfl
  | succ k ih =>
    rw [pad_positions, dif_pos (by omega),
      List.filter_cons_of_neg (by simp [Event.is_solve_location])]
    exact ih (c + 1) (by omega)

theorem positions_table_no_solve (r : FilterResult) :
    (positions_table r).filter Event.is_solve_location = [] := by
  unfold positions_table
  simp only [List.filter_append, show_positions_no_solve, pad_positions_no_solve,
    List.append_nil]
  rfl

theorem solution_block_solve_calls (S : Solver) (a : PosArrays) (pos_used : Nat)
    (h : FixHistory) :
    (solution_block S a pos_used h).1.filter Event.is_solve_location =
      if pos_used > 3 then [Event.solve_location pos_used a.pos_x a.pos_y a.pos_z a.pos_t]
      else [] := by
  unfold solution_block
  split <;> rfl

theorem show_filtered_solve_calls (S : Solver) (r : FilterResult) (h : FixHistory) :
    (show_filtered S r h).events.filter Event.is_solve_location =
      if r.pos_used > 3 then
        [Event.solve_location r.pos_used r.pos.pos_x r.pos.pos_y r.pos.pos_z r.pos.pos_t]
      else [] := by
  show (positions_table r ++ (solution_block S r.pos r.pos_used h).1).filter _ = _
  rw [List.filter_append, positions_table_no_solve, List.nil_append,
    solution_block_solve_calls]

/-- C10. In every tick, whatever the filter left: the calls of `solve_location`
among the events of lines 244-302 are exactly one call, with `pos_used` and the
four arrays, when `pos_used > 3`, and none otherwise; these events are the
candidate table followed by the solution block; the solution block shows four
lines in either branch; and `pos_used > 3` or the block is exactly four blank
lines with the history untouched. -/
theorem C10_solve_only_above_three (S : Solver) (r : FilterResult) (h : FixHistory) :
    ((show_filtered S r h).events.filter Event.is_solve_location =
      if r.pos_used > 3 then
        [Event.solve_location r.pos_used r.pos.pos_x r.pos.pos_y r.pos.pos_z r.pos.pos_t]
      else []) ∧
    (show_filtered S r h).events =
      positions_table r ++ (solution_block S r.pos r.pos_used h).1 ∧
    (shown_lines (solution_block S r.pos r.pos_used h).1).length = 4 ∧
    (r.pos_used > 3 ∨
      solution_block S r.pos r.pos_used h =
        ([Event.show_line Line.blank, Event.show_line Line.blank,
          Event.show_line Line.blank, Event.show_line Line.blank], h)) := by
  refine ⟨show_filtered_solve_calls S r h, rfl, ?_, ?_⟩
  · unfold solution_block
    split <;> rfl
  · by_cases hp : r.pos_used > 3
    · exact Or.inl hp
    · right
      unfold solution_block
      rw [if_neg hp]

/-- C9. For a list of at least 4 candidates (so for 4 to 10) whose times are
pairwise less than 0.1 s apart: the agreed time is the time of the first
candidate, the filter leaves the arrays and the count as they were with the
flag clear, and lines 244-302 then run on them, calling `solve_location` once
with that count and the arrays, and the solution block shows a blank line, a
"Solution ECEF" line, a "Solution LLA" line and an "Average LLA" line. -/
theorem C9_all_agree_all_solved (S : Solver) (a : PosArrays) (pos_used : Nat) (h : FixHistory)
    (h4 : 4 ≤ pos_used)
    (hclose : ∀ i, i < pos_used → ∀ j, j < pos_used →
      |a.pos_t.getD i 0 - a.pos_t.getD j 0| < 0.1) :
    agreed_time a.pos_t pos_used = some (a.pos_t.getD 0 0) ∧
    consensus_filter a pos_used =
      some { pos := a, pos_used := pos_used, bad_time_detected := false } ∧
    status_show_tail S a pos_used h =
      some (show_filtered S { pos := a, pos_used := pos_used, bad_time_detected := false } h) ∧
    (show_filtered S { pos := a, pos_used := pos_used, bad_time_detected := false } h).events.filter
        Event.is_solve_location =
      [Event.solve_location pos_used a.pos_x a.pos_y a.pos_z a.pos_t] ∧
    ∃ x y z t lat lon alt avg_lat avg_lon avg_alt,
      shown_lines (solution_block S a pos_used h).1 =
        [Line.blank, Line.solution_ecef x y z t, Line.solution_lla lat lon alt,
         Line.average_lla avg_lat avg_lon avg_alt] := by
  have hfa : find_agreed a.pos_t pos_used 0 = 0 := by
    rw [find_agreed, dif_pos (by omega), dif_pos]
    rw [count_agreeing_all _ _ 0 1 1 (fun j hj => hclose j hj 0 (by omega))]
    omega
  have hag : agreed_time a.pos_t pos_used = some (a.pos_t.getD 0 0) := by
    rw [agreed_time, hfa]
    rfl
  have hcf : consensus_filter a pos_used =
      some { pos := a, pos_used := pos_used, bad_time_detected := false } := by
    rw [consensus_filter, hag]
    simp only
    rw [drop_bad_times_all_kept _ _ _ _ _ (fun j hj => hclose 0 (by omega) j hj)]
  refine ⟨hag, hcf, ?_, ?_, ?_⟩
  · rw [status_show_tail, hcf]
  · rw [show_filtered_solve_calls]
    exact if_pos (by omega : pos_used > 3)
  · unfold solution_block
    rw [if_pos (by omega : pos_used > 3)]
    exact ⟨_, _, _, _, _, _, _, _, _, _, rfl⟩

/-- C9 at a concrete input: the first four candidates of `four_close_one_far`
(times 100, 100.05, 100.02, 100.07), `constant_solver`, and the history of
process start. -/
theorem C9_all_agree_all_solved_witness :
    (4 ≤ 4 ∧ ∀ i, i < 4 → ∀ j, j < 4 →
      |four_close_one_far.pos_t.getD i 0 - four_close_one_far.pos_t.getD j 0| < 0.1) ∧
    agreed_time four_close_one_far.pos_t 4 = some (four_close_one_far.pos_t.getD 0 0) ∧
    consensus_filter four_close_one_far 4 =
      some { pos := four_close_one_far, pos_used := 4, bad_time_detected := false } ∧
    status_show_tail constant_solver four_close_one_far 4 FixHistory.initial =
      some (show_filtered constant_solver
        { pos := four_close_one_far, pos_used := 4, bad_time_detected := false }
        FixHistory.initial) ∧
    (show_filtered constant_solver
        { pos := four_close_one_far, pos_used := 4, bad_time_detected := false }
        FixHistory.initial).events.filter Event.is_solve_location =
      [Event.solve_location 4 four_close_one_far.pos_x four_close_one_far.pos_y
        four_close_one_far.pos_z four_close_one_far.pos_t] ∧
    ∃ x y z t lat lon alt avg_lat avg_lon avg_alt,
      shown_lines (solution_block constant_solver four_close_one_far 4 FixHistory.initial).1 =
        [Line.blank, Line.solution_ecef x y z t, Line.solution_lla lat lon alt,
         Line.average_lla avg_lat avg_lon avg_alt] :=
  ⟨⟨by decide, by decide!⟩,
    C9_all_agree_all_solved constant_solver four_close_one_far 4 FixHistory.initial
      (by decide) (by decide!)⟩

/-! ## The wrap adjustment on times of one week -/

/-- C17. For all times `a`, `b` in `[0, 604800)` the difference `a - b` after the
adjustment of lines 205-208 (and 222-225) has absolute value at most 302400,
half a week, and the difference of a time with itself is 0. -/
theorem C17_adjusted_difference_bounded (a b : ℚ) (ha0 : 0 ≤ a) (ha : a < 604800)
    (hb0 : 0 ≤ b) (hb : b < 604800) :
    |remove_weekly_wraps (a - b)| ≤ 302400 ∧ remove_weekly_wraps (a - a) = 0 ∧
    code_difference a b = remove_weekly_wraps (a - b) := by
  refine ⟨?_, ?_, rfl⟩
  · unfold remove_weekly_wraps
    rw [abs_le]
    norm_num
    split_ifs <;> constructor <;> linarith
  · unfold remove_weekly_wraps
    norm_num

/-- C17 at the times 604799.95 and 0.01. -/
theorem C17_adjusted_difference_bounded_witness :
    |remove_weekly_wraps (604799.95 - 0.01)| ≤ 302400 ∧
    remove_weekly_wraps (604799.95 - 604799.95) = 0 ∧
    code_difference 604799.95 0.01 = remove_weekly_wraps (604799.95 - 0.01) :=
  C17_adjusted_difference_bounded 604799.95 0.01 (by norm_num) (by norm_num) (by norm_num)
    (by norm_num)

/-! ## Ticks without a solution -/

/-- C14. In a tick in which the filter left 3 candidates or fewer, lines 244-302
leave the fix history as it was: `average_lat`, `average_lon`, `average_alt` and
`average_index` are the same after the tick as before it. -/
theorem C14_history_untouched_without_solution (S : Solver) (r : FilterResult)
    (h : FixHistory) (hle : r.pos_used ≤ 3) :
    (show_filtered S r h).history = h ∧
    (solution_block S r.pos r.pos_used h).2 = h := by
  have hb : (solution_block S r.pos r.pos_used h).2 = h := by
    unfold solution_block
    rw [if_neg (by omega)]
  exact ⟨hb, hb⟩

/-- C14 at a concrete tick: one candidate left, the history of process start. -/
theorem C14_history_untouched_without_solution_witness :
    (show_filtered constant_solver
        { pos := single_candidate, pos_used := 1, bad_time_detected := false }
        FixHistory.initial).history = FixHistory.initial ∧
    (solution_block constant_solver single_candidate 1 FixHistory.initial).2 =
      FixHistory.initial :=
  C14_history_untouched_without_solution constant_solver
    { pos := single_candidate, pos_used := 1, bad_time_detected := false }
    FixHistory.initial (by decide)

/-! ## The smoother -/

theorem fill_history_eq (h : FixHistory) (lat lon alt : ℚ) (i : Nat) :
    fill_history h lat lon alt i =
      { average_lat := fill_slots h.average_lat lat i
        average_lon := fill_slots h.average_lon lon i
        average_alt := fill_slots h.average_alt alt i
        average_index := h.average_index } := by
  generalize hk : AVERAGE_LEN - i = k
  induction k generalizing h i with
  | zero =>
    rw [fill_history, dif_neg (by omega), fill_slots, dif_neg (by omega),
      fill_slots, dif_neg (by omega), fill_slots, dif_neg (by omega)]
  | succ k ih =>
    rw [fill_history, dif_pos (by omega), ih _ (i + 1) (by omega)]
    conv_rhs => rw [fill_slots, dif_pos (by omega : i < AVERAGE_LEN)]
    conv_rhs => arg 2; rw [fill_slots, dif_pos (by omega : i < AVERAGE_LEN)]
    conv_rhs => arg 3; rw [fill_slots, dif_pos (by omega : i < AVERAGE_LEN)]

theorem sum_history_eq (h : FixHistory) (lat lon alt : ℚ) (i : Nat) :
    sum_history h lat lon alt i =
      (sum_slots h.average_lat lat i, sum_slots h.average_lon lon i,
        sum_slots h.average_alt alt i) := by
  generalize hk : AVERAGE_LEN - i = k
  induction k generalizing lat lon alt i with
  | zero =>
    rw [sum_history, dif_neg (by omega), sum_slots, dif_neg (by omega),
      sum_slots, dif_neg (by omega), sum_slots, dif_neg (by omega)]
  | succ k ih =>
    rw [sum_history, dif_pos (by omega), ih _ _ _ (i + 1) (by omega)]
    conv_rhs => rw [sum_slots, dif_pos (by omega : i < AVERAGE_LEN)]
    conv_rhs => arg 2; arg 1; rw [sum_slots, dif_pos (by omega : i < AVERAGE_LEN)]
    conv_rhs => arg 2; arg 2; rw [sum_slots, dif_pos (by omega : i < AVERAGE_LEN)]

theorem fill_slots_length (l : List ℚ) (v : ℚ) (i : Nat) :
    (fill_slots l v i).length = l.length := by
  generalize hk : AVERAGE_LEN - i = k
  induction k generalizing l i with
  | zero => rw [fill_slots, dif_neg (by omega)]
  | succ k ih => rw [fill_slots, dif_pos (by omega), ih _ (i + 1) (by omega), List.length_set]

theorem fill_slots_getElem? (l : List ℚ) (v : ℚ) (i j : Nat) (hl : l.length = AVERAGE_LEN) :
    (fill_slots l v i)[j]? = if i ≤ j ∧ j < AVERAGE_LEN then some v else l[j]? := by
  generalize hk : AVERAGE_LEN - i = k
  induction k generalizing l i with
  | zero =>
    rw [fill_slots, dif_neg (by omega), if_neg (by omega)]
  | succ k ih =>
    rw [fill_slots, dif_pos (by omega), ih _ (i + 1) (by rw [List.length_set]; exact hl) (by omega)]
    by_cases hij : i = j
    · subst hij
      rw [if_neg (by omega), if_pos (by omega), List.getElem?_set_self (by omega)]
    · rw [List.getElem?_set_ne hij]
      by_cases h1 : i + 1 ≤ j ∧ j < AVERAGE_LEN
      · rw [if_pos h1, if_pos (by omega)]
      · rw [if_neg h1, if_neg (by omega)]

theorem fill_slots_zero (l : List ℚ) (v : ℚ) (hl : l.length = AVERAGE_LEN) :
    fill_slots l v 0 = List.replicate AVERAGE_LEN v := by
  apply List.ext_getElem?
  intro j
  rw [fill_slots_getElem? l v 0 j hl]
  by_cases hj : j < AVERAGE_LEN
  · rw [if_pos ⟨Nat.zero_le j, hj⟩, List.getElem?_replicate, if_pos hj]
  · rw [if_neg (by omega), List.getElem?_replicate, if_neg hj, List.getElem?_eq_none (by omega)]

theorem sum_slots_eq (l : List ℚ) (acc : ℚ) (i : Nat) (hl : l.length = AVERAGE_LEN) :
    sum_slots l acc i = acc + (l.drop i).sum := by
  generalize hk : AVERAGE_LEN - i = k
  induction k generalizing acc i with
  | zero =>
    rw [sum_slots, dif_neg (by omega), List.drop_of_length_le (by omega)]
    simp
  | succ k ih =>
    rw [sum_slots, dif_pos (by omega), ih _ (i + 1) (by omega)]
    have hi : i < l.length := by omega
    rw [List.drop_eq_getElem_cons hi, List.sum_cons, List.getD_eq_getElem _ _ hi]
    ring

theorem sum_slots_zero (l : List ℚ) (hl : l.length = AVERAGE_LEN) :
    sum_slots l 0 0 = l.sum := by
  rw [sum_slots_eq l 0 0 hl]
  simp
theorem smooth_fst_of_initialised (h : FixHistory) (lat lon alt : ℚ)
    (hidx : h.average_index ≠ -1) :
    (smooth h lat lon alt).1 =
      { average_lat := h.average_lat.set h.average_index.toNat lat
        average_lon := h.average_lon.set h.average_index.toNat lon
        average_alt := h.average_alt.set h.average_index.toNat alt
        average_index :=
          if h.average_index + 1 = AVERAGE_LEN then 0 else h.average_index + 1 } := by
  unfold smooth
  simp only [if_neg hidx]

theorem smooth_fst_of_first (h : FixHistory) (lat lon alt : ℚ)
    (hidx : h.average_index = -1) (hlat : h.average_lat.length = AVERAGE_LEN)
    (hlon : h.average_lon.length = AVERAGE_LEN) (halt : h.average_alt.length = AVERAGE_LEN) :
    (smooth h lat lon alt).1 =
      { average_lat := List.replicate AVERAGE_LEN lat
        average_lon := List.replicate AVERAGE_LEN lon
        average_alt := List.replicate AVERAGE_LEN alt
        average_index := 1 } := by
  have hset : ∀ v : ℚ, (List.replicate AVERAGE_LEN v).set 0 v = List.replicate AVERAGE_LEN v := by
    intro v
    rfl
  unfold smooth
  simp only [if_pos hidx, fill_history_eq, fill_slots_zero _ _ hlat, fill_slots_zero _ _ hlon,
    fill_slots_zero _ _ halt, Int.toNat_zero, hset]
  rfl

theorem smooth_snd (h : FixHistory) (lat lon alt : ℚ)
    (hlat : h.average_lat.length = AVERAGE_LEN)
    (hlon : h.average_lon.length = AVERAGE_LEN) (halt : h.average_alt.length = AVERAGE_LEN) :
    (smooth h lat lon alt).2 =
      ((smooth h lat lon alt).1.average_lat.sum / AVERAGE_LEN,
       (smooth h lat lon alt).1.average_lon.sum / AVERAGE_LEN,
       (smooth h lat lon alt).1.average_alt.sum / AVERAGE_LEN) := by
  have h1 : (smooth h lat lon alt).1.average_lat.length = AVERAGE_LEN := by
    by_cases hidx : h.average_index = -1
    · rw [smooth_fst_of_first h lat lon alt hidx hlat hlon halt, List.length_replicate]
    · rw [smooth_fst_of_initialised h lat lon alt hidx, List.length_set, hlat]
  have h2 : (smooth h lat lon alt).1.average_lon.length = AVERAGE_LEN := by
    by_cases hidx : h.average_index = -1
    · rw [smooth_fst_of_first h lat lon alt hidx hlat hlon halt, List.length_replicate]
    · rw [smooth_fst_of_initialised h lat lon alt hidx, List.length_set, hlon]
  have h3 : (smooth h lat lon alt).1.average_alt.length = AVERAGE_LEN := by
    by_cases hidx : h.average_index = -1
    · rw [smooth_fst_of_first h lat lon alt hidx hlat hlon halt, List.length_replicate]
    · rw [smooth_fst_of_initialised h lat lon alt hidx, List.length_set, halt]
  rw [← sum_slots_zero _ h1, ← sum_slots_zero _ h2, ← sum_slots_zero _ h3]
  unfold smooth
  simp only [sum_history_eq]
theorem ring_write_length (vs : List ℚ) (l : List ℚ) (k : Nat) :
    (ring_write l k vs).1.length = l.length := by
  induction vs generalizing l k with
  | nil => rfl
  | cons v vs ih => rw [ring_write, ih, List.length_set]

theorem ring_write_getElem? (vs : List ℚ) (l : List ℚ) (k : Nat) (hl : l.length = 21)
    (hk : k < 21) (hvs : vs.length ≤ 21) (j : Nat) (hj : j < 21) :
    (ring_write l k vs).1[j]? =
      if (j + 21 - k) % 21 < vs.length then vs[(j + 21 - k) % 21]? else l[j]? := by
  induction vs generalizing l k with
  | nil => simp [ring_write]
  | cons v vs ih =>
    have hA : AVERAGE_LEN = 21 := rfl
    rw [List.length_cons] at hvs
    rw [ring_write, hA]
    generalize hk1 : (if k + 1 = 21 then 0 else k + 1) = k1
    have hk2 : k1 < 21 ∧ (k1 = k + 1 ∨ (k1 = 0 ∧ k = 20)) := by
      subst hk1
      split <;> omega
    rw [ih (l.set k v) k1 (by rw [List.length_set]; exact hl) hk2.1 (by omega)]
    generalize hd1 : (j + 21 - k1) % 21 = d1
    generalize hd : (j + 21 - k) % 21 = d
    rw [List.length_cons]
    by_cases hjk : j = k
    · have h0 : d = 0 ∧ d1 = 20 := by omega
      obtain ⟨hd0, hd20⟩ := h0
      rw [hd0, hd20, if_neg (by omega), if_pos (by omega), hjk,
        List.getElem?_set_self (by omega), List.getElem?_cons_zero]
    · have h0 : d = d1 + 1 := by omega
      rw [h0, List.getElem?_set_ne (fun h => hjk h.symm), List.getElem?_cons_succ]
      by_cases h3 : d1 < vs.length
      · rw [if_pos h3, if_pos (by omega)]
      · rw [if_neg h3, if_neg (by omega)]

theorem ring_write_full (vs : List ℚ) (l : List ℚ) (k : Nat) (hl : l.length = 21)
    (hk : k < 21) (hvs : vs.length = 21) :
    (ring_write l k vs).1 = vs.rotate (21 - k) := by
  apply List.ext_getElem?
  intro j
  by_cases hj : j < 21
  · rw [ring_write_getElem? vs l k hl hk (by omega) j hj, if_pos (by omega),
      List.getElem?_rotate (by omega), hvs]
    congr 2
    omega
  · rw [List.getElem?_eq_none (by rw [ring_write_length]; omega),
      List.getElem?_eq_none (by rw [List.length_rotate]; omega)]

theorem ring_write_full_sum (vs : List ℚ) (l : List ℚ) (k : Nat) (hl : l.length = 21)
    (hk : k < 21) (hvs : vs.length = 21) :
    (ring_write l k vs).1.sum = vs.sum := by
  rw [ring_write_full vs l k hl hk hvs]
  exact (List.rotate_perm vs _).sum_eq

theorem smooth_all_cons (h : FixHistory) (f : ℚ × ℚ × ℚ) (fs : List (ℚ × ℚ × ℚ)) :
    smooth_all h (f :: fs) = smooth_all (smooth h f.1 f.2.1 f.2.2).1 fs := rfl

theorem smooth_all_append (h : FixHistory) (fs gs : List (ℚ × ℚ × ℚ)) :
    smooth_all h (fs ++ gs) = smooth_all (smooth_all h fs) gs := by
  unfold smooth_all
  rw [List.foldl_append]

theorem smooth_all_ring (fs : List (ℚ × ℚ × ℚ)) (h : FixHistory) (k : Nat)
    (hk : h.average_index = k) :
    smooth_all h fs =
      { average_lat := (ring_write h.average_lat k (fs.map (fun f => f.1))).1
        average_lon := (ring_write h.average_lon k (fs.map (fun f => f.2.1))).1
        average_alt := (ring_write h.average_alt k (fs.map (fun f => f.2.2))).1
        average_index := ((ring_write h.average_lat k (fs.map (fun f => f.1))).2 : Nat) } := by
  induction fs generalizing h k with
  | nil =>
    cases h
    simp only [smooth_all, List.foldl_nil, List.map_nil, ring_write]
    simp only at hk
    rw [hk]
  | cons f fs ih =>
    have hne : h.average_index ≠ -1 := by omega
    have hidx : (smooth h f.1 f.2.1 f.2.2).1.average_index =
        ((if k + 1 = AVERAGE_LEN then 0 else k + 1 : Nat) : Int) := by
      rw [smooth_fst_of_initialised h _ _ _ hne]
      simp only [hk]
      have hA : AVERAGE_LEN = 21 := rfl
      rw [hA]
      split <;> split <;> omega
    rw [smooth_all_cons, ih _ _ hidx, smooth_fst_of_initialised h _ _ _ hne]
    simp only [hk, Int.toNat_ofNat, List.map_cons, ring_write]

theorem smooth_valid (h : FixHistory) (lat lon alt : ℚ) (hv : h.Valid) :
    (smooth h lat lon alt).1.Valid ∧ (smooth h lat lon alt).1.average_index ≠ -1 := by
  obtain ⟨h1, h2, h3, h4⟩ := hv
  have hA : AVERAGE_LEN = 21 := rfl
  by_cases hidx : h.average_index = -1
  · rw [smooth_fst_of_first h lat lon alt hidx h1 h2 h3]
    refine ⟨⟨?_, ?_, ?_, Or.inr ?_⟩, ?_⟩
    · exact List.length_replicate _ _
    · exact List.length_replicate _ _
    · exact List.length_replicate _ _
    · simp only [hA]; omega
    · simp only; omega
  · rw [smooth_fst_of_initialised h lat lon alt hidx]
    have h5 : 0 ≤ h.average_index ∧ h.average_index < AVERAGE_LEN := by
      cases h4 with
      | inl h => exact absurd h hidx
      | inr h => exact h
    rw [hA] at h5
    refine ⟨⟨?_, ?_, ?_, Or.inr ?_⟩, ?_⟩
    · simp only [List.length_set]; exact h1
    · simp only [List.length_set]; exact h2
    · simp only [List.length_set]; exact h3
    · simp only [hA]; split <;> omega
    · simp only [hA]; split <;> omega

theorem smooth_all_valid (fs : List (ℚ × ℚ × ℚ)) (h : FixHistory) (hv : h.Valid) :
    (smooth_all h fs).Valid := by
  induction fs generalizing h with
  | nil => exact hv
  | cons f fs ih =>
    rw [smooth_all_cons]
    exact ih _ (smooth_valid h _ _ _ hv).1
theorem smooth_all_sums_initialised (fs : List (ℚ × ℚ × ℚ)) (h : FixHistory) (k : Nat)
    (hk : h.average_index = k) (hk21 : k < 21) (h1 : h.average_lat.length = AVERAGE_LEN)
    (h2 : h.average_lon.length = AVERAGE_LEN) (h3 : h.average_alt.length = AVERAGE_LEN)
    (hfs : fs.length = 21) :
    (smooth_all h fs).average_lat.sum = (fs.map (fun f => f.1)).sum ∧
    (smooth_all h fs).average_lon.sum = (fs.map (fun f => f.2.1)).sum ∧
    (smooth_all h fs).average_alt.sum = (fs.map (fun f => f.2.2)).sum := by
  rw [smooth_all_ring fs h k hk]
  exact ⟨ring_write_full_sum _ _ k h1 hk21 (by rw [List.length_map]; exact hfs),
    ring_write_full_sum _ _ k h2 hk21 (by rw [List.length_map]; exact hfs),
    ring_write_full_sum _ _ k h3 hk21 (by rw [List.length_map]; exact hfs)⟩

theorem smooth_all_sums (fs : List (ℚ × ℚ × ℚ)) (h : FixHistory) (hv : h.Valid)
    (hfs : fs.length = 21) :
    (smooth_all h fs).average_lat.sum = (fs.map (fun f => f.1)).sum ∧
    (smooth_all h fs).average_lon.sum = (fs.map (fun f => f.2.1)).sum ∧
    (smooth_all h fs).average_alt.sum = (fs.map (fun f => f.2.2)).sum := by
  obtain ⟨h1, h2, h3, h4⟩ := hv
  have hA : AVERAGE_LEN = 21 := rfl
  cases h4 with
  | inr h5 =>
    rw [hA] at h5
    exact smooth_all_sums_initialised fs h h.average_index.toNat
      (by rw [Int.toNat_of_nonneg h5.1]) (by omega) h1 h2 h3 hfs
  | inl hidx =>
    cases fs with
    | nil => simp at hfs
    | cons f fs =>
      have hsame : smooth_all h (f :: fs) =
          smooth_all
            { average_lat := List.replicate AVERAGE_LEN f.1
              average_lon := List.replicate AVERAGE_LEN f.2.1
              average_alt := List.replicate AVERAGE_LEN f.2.2
              average_index := 0 } (f :: fs) := by
        rw [smooth_all_cons, smooth_all_cons, smooth_fst_of_first h _ _ _ hidx h1 h2 h3,
          smooth_fst_of_initialised _ _ _ _ (by simp)]
        rfl
      rw [hsame]
      exact smooth_all_sums_initialised (f :: fs) _ 0 rfl (by omega)
        (List.length_replicate _ _) (List.length_replicate _ _) (List.length_replicate _ _) hfs

theorem smooth_all_snoc (h : FixHistory) (fs : List (ℚ × ℚ × ℚ)) (f : ℚ × ℚ × ℚ) :
    smooth_all h (fs ++ [f]) = (smooth (smooth_all h fs) f.1 f.2.1 f.2.2).1 := by
  rw [smooth_all_append]
  rfl

theorem smooth_last_is_mean (h : FixHistory) (fs : List (ℚ × ℚ × ℚ)) (f : ℚ × ℚ × ℚ)
    (hv : h.Valid) (hn : 20 ≤ fs.length) :
    (smooth (smooth_all h fs) f.1 f.2.1 f.2.2).2 = mean_fix (last_fixes (fs ++ [f])) := by
  have hA : AVERAGE_LEN = 21 := rfl
  have hv1 := smooth_all_valid fs h hv
  rw [smooth_snd _ _ _ _ hv1.1 hv1.2.1 hv1.2.2.1, ← smooth_all_snoc]
  have hsplit : fs ++ [f] =
      (fs ++ [f]).take ((fs ++ [f]).length - AVERAGE_LEN) ++ last_fixes (fs ++ [f]) := by
    unfold last_fixes
    rw [List.take_append_drop]
  have hlen : (last_fixes (fs ++ [f])).length = 21 := by
    unfold last_fixes
    rw [List.length_drop, List.length_append, List.length_singleton, hA]
    omega
  have hsum := smooth_all_sums (last_fixes (fs ++ [f]))
    (smooth_all h ((fs ++ [f]).take ((fs ++ [f]).length - AVERAGE_LEN)))
    (smooth_all_valid _ h hv) hlen
  rw [← smooth_all_append, ← hsplit] at hsum
  rw [hsum.1, hsum.2.1, hsum.2.2]
  rfl

/-- C11. On a history with `average_index = -1` (three arrays of 21 slots), the
smoothing update with the fix `lat, lon, alt` leaves every slot of `average_lat`
equal to `lat`, of `average_lon` to `lon`, of `average_alt` to `alt`, and the
average it returns is exactly `(lat, lon, alt)`. -/
theorem C11_first_fix_fills_history (h : FixHistory) (lat lon alt : ℚ)
    (hidx : h.average_index = -1) (hlat : h.average_lat.length = AVERAGE_LEN)
    (hlon : h.average_lon.length = AVERAGE_LEN) (halt : h.average_alt.length = AVERAGE_LEN) :
    (smooth h lat lon alt).1.average_lat = List.replicate 21 lat ∧
    (smooth h lat lon alt).1.average_lon = List.replicate 21 lon ∧
    (smooth h lat lon alt).1.average_alt = List.replicate 21 alt ∧
    (smooth h lat lon alt).2 = (lat, lon, alt) := by
  have hfst := smooth_fst_of_first h lat lon alt hidx hlat hlon halt
  have hA : AVERAGE_LEN = 21 := rfl
  refine ⟨by rw [hfst, hA], by rw [hfst, hA], by rw [hfst, hA], ?_⟩
  rw [smooth_snd h lat lon alt hlat hlon halt, hfst]
  simp only [List.sum_replicate, hA, nsmul_eq_mul, Nat.cast_ofNat]
  rw [mul_div_cancel_left₀ _ (by norm_num), mul_div_cancel_left₀ _ (by norm_num),
    mul_div_cancel_left₀ _ (by norm_num)]

/-- C11 at the history of process start and the fix (10, 20, 30): the average
returned is (10, 20, 30). -/
theorem C11_first_fix_fills_history_witness :
    (smooth FixHistory.initial 10 20 30).1.average_lat = List.replicate 21 10 ∧
    (smooth FixHistory.initial 10 20 30).1.average_lon = List.replicate 21 20 ∧
    (smooth FixHistory.initial 10 20 30).1.average_alt = List.replicate 21 30 ∧
    (smooth FixHistory.initial 10 20 30).2 = (10, 20, 30) :=
  C11_first_fix_fills_history FixHistory.initial 10 20 30 rfl rfl rfl rfl

/-- C12. From a history of three 21-slot arrays with `average_index` either -1
or in 0..20, after 21 or more consecutive smoothing updates (the fixes `fs`, at
least 20 of them, then the fix `f`), the average the last update returns is, per
component, the sum of the last 21 fixes supplied divided by 21; and feeding the
same fix `f` 21 times in a row returns exactly `f`. -/
theorem C12_average_is_mean_of_last_fixes (h : FixHistory) (fs : List (ℚ × ℚ × ℚ))
    (f : ℚ × ℚ × ℚ) (hv : h.Valid) (hn : 20 ≤ fs.length) :
    (smooth (smooth_all h fs) f.1 f.2.1 f.2.2).2 = mean_fix (last_fixes (fs ++ [f])) ∧
    (smooth (smooth_all h (List.replicate 20 f)) f.1 f.2.1 f.2.2).2 = f := by
  refine ⟨smooth_last_is_mean h fs f hv hn, ?_⟩
  rw [smooth_last_is_mean h (List.replicate 20 f) f hv (by simp)]
  have hl : last_fixes (List.replicate 20 f ++ [f]) = List.replicate 21 f := by
    unfold last_fixes
    simp only [List.length_append, List.length_replicate, List.length_singleton]
    rfl
  rw [hl]
  unfold mean_fix
  have hA : AVERAGE_LEN = 21 := rfl
  simp only [List.map_replicate, List.sum_replicate, hA, nsmul_eq_mul, Nat.cast_ofNat]
  rw [mul_div_cancel_left₀ _ (by norm_num), mul_div_cancel_left₀ _ (by norm_num),
    mul_div_cancel_left₀ _ (by norm_num)]
/-- C12 at the history of process start, the 24 fixes of `ramp_fixes` and then
the fix (24, 48, 100): the last 21 latitudes are 4, .., 24 and the average
returned is (14, 28, 100). -/
theorem C12_average_is_mean_of_last_fixes_witness :
    (FixHistory.initial.Valid ∧ 20 ≤ ramp_fixes.length) ∧
    ((smooth (smooth_all FixHistory.initial ramp_fixes) 24 48 100).2 =
        mean_fix (last_fixes (ramp_fixes ++ [(24, 48, 100)])) ∧
      (smooth (smooth_all FixHistory.initial (List.replicate 20 (24, 48, 100))) 24 48 100).2 =
        (24, 48, 100)) ∧
    mean_fix (last_fixes (ramp_fixes ++ [(24, 48, 100)])) = (14, 28, 100) :=
  ⟨⟨⟨rfl, rfl, rfl, Or.inl rfl⟩, by decide⟩,
    C12_average_is_mean_of_last_fixes FixHistory.initial ramp_fixes (24, 48, 100)
      ⟨rfl, rfl, rfl, Or.inl rfl⟩ (by decide),
    by decide!⟩

theorem sum_set_eq (l : List ℚ) (k : Nat) (v : ℚ) (hk : k < l.length) :
    (l.set k v).sum / 21 = l.sum / 21 + (v - l.getD k 0) / 21 := by
  rw [List.sum_set', dif_pos hk, List.getD_eq_getElem _ _ hk]
  ring

theorem smooth_slots_of_initialised (h : FixHistory) (lat lon alt : ℚ)
    (h0 : 0 ≤ h.average_index) (h21 : h.average_index < 21)
    (hlat : h.average_lat.length = AVERAGE_LEN) (hlon : h.average_lon.length = AVERAGE_LEN)
    (halt : h.average_alt.length = AVERAGE_LEN) :
    (∀ j, j ≠ h.average_index.toNat →
      (smooth h lat lon alt).1.average_lat.getD j 0 = h.average_lat.getD j 0 ∧
      (smooth h lat lon alt).1.average_lon.getD j 0 = h.average_lon.getD j 0 ∧
      (smooth h lat lon alt).1.average_alt.getD j 0 = h.average_alt.getD j 0) ∧
    (smooth h lat lon alt).1.average_lat.getD h.average_index.toNat 0 = lat ∧
    (smooth h lat lon alt).1.average_lon.getD h.average_index.toNat 0 = lon ∧
    (smooth h lat lon alt).1.average_alt.getD h.average_index.toNat 0 = alt := by
  have hA : AVERAGE_LEN = 21 := rfl
  have hfst := smooth_fst_of_initialised h lat lon alt (by omega)
  have hk : h.average_index.toNat < 21 := by omega
  refine ⟨?_, ?_⟩
  · intro j hj
    rw [hfst]
    refine ⟨?_, ?_, ?_⟩ <;>
      simp only [List.getD_eq_getElem?_getD, List.getElem?_set_ne (Ne.symm hj)]
  · rw [hfst]
    refine ⟨?_, ?_, ?_⟩ <;> simp only [List.getD_eq_getElem?_getD] <;>
      rw [List.getElem?_set_self (by omega)] <;> rfl

/-- C13. On an initialised history (three arrays of 21 slots, `average_index` in
0..20) the smoothing update with the fix `lat, lon, alt` writes the fix to the
slot at the cursor in each array and to no other slot, and returns per component
the previous mean of the 21 slots plus `(new - old) / 21`, `old` being the value
overwritten. -/
theorem C13_update_overwrites_cursor_slot (h : FixHistory) (lat lon alt : ℚ)
    (h0 : 0 ≤ h.average_index) (h21 : h.average_index < 21)
    (hlat : h.average_lat.length = AVERAGE_LEN) (hlon : h.average_lon.length = AVERAGE_LEN)
    (halt : h.average_alt.length = AVERAGE_LEN) :
    ((smooth h lat lon alt).1.average_lat = h.average_lat.set h.average_index.toNat lat ∧
      (smooth h lat lon alt).1.average_lon = h.average_lon.set h.average_index.toNat lon ∧
      (smooth h lat lon alt).1.average_alt = h.average_alt.set h.average_index.toNat alt) ∧
    (∀ j, j ≠ h.average_index.toNat →
      (smooth h lat lon alt).1.average_lat.getD j 0 = h.average_lat.getD j 0 ∧
      (smooth h lat lon alt).1.average_lon.getD j 0 = h.average_lon.getD j 0 ∧
      (smooth h lat lon alt).1.average_alt.getD j 0 = h.average_alt.getD j 0) ∧
    ((smooth h lat lon alt).1.average_lat.getD h.average_index.toNat 0 = lat ∧
      (smooth h lat lon alt).1.average_lon.getD h.average_index.toNat 0 = lon ∧
      (smooth h lat lon alt).1.average_alt.getD h.average_index.toNat 0 = alt) ∧
    (smooth h lat lon alt).2 =
      (h.average_lat.sum / 21 + (lat - h.average_lat.getD h.average_index.toNat 0) / 21,
       h.average_lon.sum / 21 + (lon - h.average_lon.getD h.average_index.toNat 0) / 21,
       h.average_alt.sum / 21 + (alt - h.average_alt.getD h.average_index.toNat 0) / 21) := by
  have hA : AVERAGE_LEN = 21 := rfl
  have hfst := smooth_fst_of_initialised h lat lon alt (by omega)
  have hk : h.average_index.toNat < 21 := by omega
  have hs := smooth_slots_of_initialised h lat lon alt h0 h21 hlat hlon halt
  refine ⟨by rw [hfst]; exact ⟨rfl, rfl, rfl⟩, hs.1, hs.2, ?_⟩
  · rw [smooth_snd h lat lon alt hlat hlon halt, hfst]
    simp only [hA, Nat.cast_ofNat]
    rw [sum_set_eq _ _ _ (by omega), sum_set_eq _ _ _ (by omega), sum_set_eq _ _ _ (by omega)]

/-- C13 at the history left by the warm start with (10, 20, 30) and the fix
(0, 0, 0): slot 1 is overwritten and the latitude returned is 10 * (20 / 21). -/
theorem C13_update_overwrites_cursor_slot_witness :
    (smooth (smooth FixHistory.initial 10 20 30).1 0 0 0).1.average_lat =
      (smooth FixHistory.initial 10 20 30).1.average_lat.set 1 0 ∧
    (smooth (smooth FixHistory.initial 10 20 30).1 0 0 0).2 =
      (10 * (20 / 21), 20 * (20 / 21), 30 * (20 / 21)) := by
  have h := C13_update_overwrites_cursor_slot (smooth FixHistory.initial 10 20 30).1 0 0 0
    (by decide!) (by decide!) (by decide!) (by decide!) (by decide!)
  refine ⟨h.1.1, ?_⟩
  decide!
theorem smooth_fst_eq (h : FixHistory) (lat lon alt : ℚ) :
    (smooth h lat lon alt).1 =
      { average_lat :=
          (if h.average_index = -1 then fill_slots h.average_lat lat 0
            else h.average_lat).set (smooth_write_index h).toNat lat
        average_lon :=
          (if h.average_index = -1 then fill_slots h.average_lon lon 0
            else h.average_lon).set (smooth_write_index h).toNat lon
        average_alt :=
          (if h.average_index = -1 then fill_slots h.average_alt alt 0
            else h.average_alt).set (smooth_write_index h).toNat alt
        average_index :=
          if smooth_write_index h + 1 = AVERAGE_LEN then 0 else smooth_write_index h + 1 } := by
  unfold smooth smooth_write_index
  by_cases hidx : h.average_index = -1
  · simp only [if_pos hidx, fill_history_eq]
  · simp only [if_neg hidx]

theorem solution_block_history (S : Solver) (a : PosArrays) (pos_used : Nat) (h : FixHistory) :
    (solution_block S a pos_used h).2 =
      if pos_used > 3 then
        (smooth h (Tick.fix ⟨S, a, pos_used⟩).1 (Tick.fix ⟨S, a, pos_used⟩).2.1
          (Tick.fix ⟨S, a, pos_used⟩).2.2).1
      else h := by
  unfold solution_block
  split <;> rfl

theorem history_after_snoc (h : FixHistory) (ts : List Tick) (t : Tick) :
    history_after h (ts ++ [t]) =
      (solution_block t.S t.pos t.pos_used (history_after h ts)).2 := by
  unfold history_after
  rw [List.foldl_append]
  rfl

theorem replicate_getD (v : ℚ) (j : Nat) (hj : j < 21) :
    (List.replicate AVERAGE_LEN v).getD j 0 = v := by
  have hA : AVERAGE_LEN = 21 := rfl
  rw [List.getD_eq_getElem _ _ (by rw [List.length_replicate, hA]; exact hj),
    List.getElem_replicate]

theorem history_after_invariant (ts : List Tick) :
    (history_after FixHistory.initial ts).Valid ∧
    ((history_after FixHistory.initial ts).average_index = -1 ∨
      ∀ j, j < 21 → ∃ t, t ∈ ts ∧ t.pos_used > 3 ∧
        ((history_after FixHistory.initial ts).average_lat.getD j 0,
         (history_after FixHistory.initial ts).average_lon.getD j 0,
         (history_after FixHistory.initial ts).average_alt.getD j 0) = t.fix) := by
  induction ts using List.reverseRecOn with
  | nil => exact ⟨⟨rfl, rfl, rfl, Or.inl rfl⟩, Or.inl rfl⟩
  | append_singleton ts t ih =>
    obtain ⟨hv, hs⟩ := ih
    rw [history_after_snoc, solution_block_history]
    by_cases hp : t.pos_used > 3
    · rw [if_pos hp]
      have hv1 := smooth_valid (history_after FixHistory.initial ts) (Tick.fix t).1
        (Tick.fix t).2.1 (Tick.fix t).2.2 hv
      refine ⟨hv1.1, Or.inr ?_⟩
      intro j hj
      by_cases hidx : (history_after FixHistory.initial ts).average_index = -1
      · refine ⟨t, by simp, hp, ?_⟩
        show (List.getD (smooth _ (Tick.fix t).1 (Tick.fix t).2.1 (Tick.fix t).2.2).1.average_lat j 0,
          List.getD (smooth _ (Tick.fix t).1 (Tick.fix t).2.1 (Tick.fix t).2.2).1.average_lon j 0,
          List.getD (smooth _ (Tick.fix t).1 (Tick.fix t).2.1 (Tick.fix t).2.2).1.average_alt j 0)
            = Tick.fix t
        rw [smooth_fst_of_first _ _ _ _ hidx hv.1 hv.2.1 hv.2.2.1]
        simp only [replicate_getD _ j hj]
      · obtain ⟨h1, h2, h3, h4⟩ := hv
        have h5 : 0 ≤ (history_after FixHistory.initial ts).average_index ∧
            (history_after FixHistory.initial ts).average_index < 21 := by
          cases h4 with
          | inl h => exact absurd h hidx
          | inr h => exact h
        have hA : AVERAGE_LEN = 21 := rfl
        have hc := smooth_slots_of_initialised (history_after FixHistory.initial ts) (Tick.fix t).1
          (Tick.fix t).2.1 (Tick.fix t).2.2 h5.1 h5.2 h1 h2 h3
        by_cases hjk : j = (history_after FixHistory.initial ts).average_index.toNat
        · refine ⟨t, by simp, hp, ?_⟩
          show (List.getD (smooth _ (Tick.fix t).1 (Tick.fix t).2.1 (Tick.fix t).2.2).1.average_lat j 0,
            List.getD (smooth _ (Tick.fix t).1 (Tick.fix t).2.1 (Tick.fix t).2.2).1.average_lon j 0,
            List.getD (smooth _ (Tick.fix t).1 (Tick.fix t).2.1 (Tick.fix t).2.2).1.average_alt j 0)
              = Tick.fix t
          rw [hjk, hc.2.1, hc.2.2.1, hc.2.2.2]
        · cases hs with
          | inl h => exact absurd h hidx
          | inr hs =>
            obtain ⟨t0, ht0, hp0, hfix⟩ := hs j hj
            refine ⟨t0, by simp [ht0], hp0, ?_⟩
            show (List.getD (smooth _ (Tick.fix t).1 (Tick.fix t).2.1 (Tick.fix t).2.2).1.average_lat j 0,
              List.getD (smooth _ (Tick.fix t).1 (Tick.fix t).2.1 (Tick.fix t).2.2).1.average_lon j 0,
              List.getD (smooth _ (Tick.fix t).1 (Tick.fix t).2.1 (Tick.fix t).2.2).1.average_alt j 0)
                = Tick.fix t0
            rw [(hc.1 j hjk).1, (hc.1 j hjk).2.1, (hc.1 j hjk).2.2]
            exact hfix
    · rw [if_neg hp]
      refine ⟨hv, ?_⟩
      cases hs with
      | inl h => exact Or.inl h
      | inr hs =>
        right
        intro j hj
        obtain ⟨t0, ht0, hp0, hfix⟩ := hs j hj
        exact ⟨t0, by simp [ht0], hp0, hfix⟩
/-- C18. After any sequence of ticks from process start: the three history
arrays have 21 slots and `average_index` is -1 or in 0..20; the index used by the
writes of lines 277-279 in a following update is in 0..20 (the update writes
`lat`, `lon`, `alt` at that index, after the first-fix fill when `average_index`
was -1); and `average_index` is still -1 or every slot `j` of the three arrays
holds the fix of one of the ticks so far that had more than 3 candidates. -/
theorem C18_history_invariant (ts : List Tick) :
    (history_after FixHistory.initial ts).Valid ∧
    (0 ≤ smooth_write_index (history_after FixHistory.initial ts) ∧
      smooth_write_index (history_after FixHistory.initial ts) < 21) ∧
    (∀ lat lon alt : ℚ,
      (smooth (history_after FixHistory.initial ts) lat lon alt).1.average_lat =
          (if (history_after FixHistory.initial ts).average_index = -1 then
              fill_slots (history_after FixHistory.initial ts).average_lat lat 0
            else (history_after FixHistory.initial ts).average_lat).set
            (smooth_write_index (history_after FixHistory.initial ts)).toNat lat ∧
      (smooth (history_after FixHistory.initial ts) lat lon alt).1.average_lon =
          (if (history_after FixHistory.initial ts).average_index = -1 then
              fill_slots (history_after FixHistory.initial ts).average_lon lon 0
            else (history_after FixHistory.initial ts).average_lon).set
            (smooth_write_index (history_after FixHistory.initial ts)).toNat lon ∧
      (smooth (history_after FixHistory.initial ts) lat lon alt).1.average_alt =
          (if (history_after FixHistory.initial ts).average_index = -1 then
              fill_slots (history_after FixHistory.initial ts).average_alt alt 0
            else (history_after FixHistory.initial ts).average_alt).set
            (smooth_write_index (history_after FixHistory.initial ts)).toNat alt) ∧
    ((history_after FixHistory.initial ts).average_index = -1 ∨
      ∀ j, j < 21 → ∃ t, t ∈ ts ∧ t.pos_used > 3 ∧
        ((history_after FixHistory.initial ts).average_lat.getD j 0,
         (history_after FixHistory.initial ts).average_lon.getD j 0,
         (history_after FixHistory.initial ts).average_alt.getD j 0) = t.fix) := by
  have hinv := history_after_invariant ts
  refine ⟨hinv.1, ?_, ?_, hinv.2⟩
  · have h4 := hinv.1.2.2.2
    have hA : AVERAGE_LEN = 21 := rfl
    unfold smooth_write_index
    split
    · omega
    · omega
  · intro lat lon alt
    rw [smooth_fst_eq]
    exact ⟨rfl, rfl, rfl⟩

/-! ## Iteration counts of the filter loops -/

theorem count_agreeing_counted_eq (pos_t : List ℚ) (pos_used c c2 n : Nat) :
    (count_agreeing_counted pos_t pos_used c c2 n).1 = count_agreeing pos_t pos_used c c2 n ∧
    (count_agreeing_counted pos_t pos_used c c2 n).2 = pos_used - c2 := by
  generalize hk : pos_used - c2 = k
  induction k generalizing c2 n with
  | zero =>
    rw [count_agreeing_counted, dif_neg (by omega), count_agreeing, dif_neg (by omega)]
    exact ⟨rfl, rfl⟩
  | succ k ih =>
    rw [count_agreeing_counted, dif_pos (by omega), count_agreeing, dif_pos (by omega)]
    simp only
    exact ⟨(ih (c2 + 1) _ (by omega)).1, by rw [(ih (c2 + 1) _ (by omega)).2]⟩

theorem find_agreed_counted_eq (pos_t : List ℚ) (pos_used c : Nat) :
    (find_agreed_counted pos_t pos_used c).1 = find_agreed pos_t pos_used c ∧
    (find_agreed_counted pos_t pos_used c).2 ≤ pos_used - c := by
  generalize hk : pos_used - c = k
  induction k generalizing c with
  | zero =>
    rw [find_agreed_counted, dif_neg (by omega), find_agreed, dif_neg (by omega)]
    exact ⟨rfl, Nat.zero_le _⟩
  | succ k ih =>
    have hc : c < pos_used := by omega
    rw [find_agreed_counted, dif_pos hc, find_agreed, dif_pos hc]
    by_cases hq : count_agreeing pos_t pos_used c (c + 1) 1 > 3
    · rw [dif_pos hq, dif_pos hq]
      exact ⟨rfl, by simp only; omega⟩
    · rw [dif_neg hq, dif_neg hq]
      have := ih (c + 1) (by omega)
      exact ⟨this.1, by simp only; omega⟩

theorem shift_down_counted_eq (a : PosArrays) (pos_used c2 c : Nat) :
    (shift_down_counted a pos_used c2 c).1 = shift_down a pos_used c2 c ∧
    (shift_down_counted a pos_used c2 c).2 = pos_used - 1 - c := by
  generalize hk : pos_used - 1 - c = k
  induction k generalizing a c with
  | zero =>
    rw [shift_down_counted, dif_neg (by omega), shift_down, dif_neg (by omega)]
    exact ⟨rfl, rfl⟩
  | succ k ih =>
    rw [shift_down_counted, dif_pos (by omega), shift_down, dif_pos (by omega)]
    simp only
    exact ⟨(ih _ (c + 1) (by omega)).1, by rw [(ih _ (c + 1) (by omega)).2]⟩

theorem drop_bad_times_traced_done (g : ℚ) (a : PosArrays) (n : Nat) (b : Bool) (c : Nat)
    (h : ¬ c < n) :
    drop_bad_times_traced g a n b c =
      ({ pos := a, pos_used := n, bad_time_detected := b }, []) := by
  rw [drop_bad_times_traced, dif_neg h]

theorem drop_bad_times_traced_keep (g : ℚ) (a : PosArrays) (n : Nat) (b : Bool) (c : Nat)
    (h : c < n) (hd : |remove_weekly_wraps (g - a.pos_t.getD c 0)| < 0.1) :
    drop_bad_times_traced g a n b c =
      ((drop_bad_times_traced g a n b (c + 1)).1,
        c :: (drop_bad_times_traced g a n b (c + 1)).2) := by
  rw [drop_bad_times_traced, dif_pos h]
  exact dif_pos hd

theorem drop_bad_times_traced_drop (g : ℚ) (a : PosArrays) (n : Nat) (b : Bool) (c : Nat)
    (h : c < n) (hd : ¬ |remove_weekly_wraps (g - a.pos_t.getD c 0)| < 0.1) :
    drop_bad_times_traced g a n b c =
      ({ pos := (shift_down a n c c).1, pos_used := n - 1, bad_time_detected := true }, [c]) := by
  rw [drop_bad_times_traced, dif_pos h]
  refine (dif_neg hd).trans ?_
  rw [drop_bad_times_traced_done _ _ _ _ _ (by rw [shift_down_snd]; omega)]

theorem drop_bad_times_traced_spec (g : ℚ) (a : PosArrays) (n : Nat) (b : Bool) (c : Nat) :
    (drop_bad_times_traced g a n b c).1 = drop_bad_times g a n b c ∧
    (drop_bad_times_traced g a n b c).2.length ≤ n - c ∧
    (∀ i, i ∈ (drop_bad_times_traced g a n b c).2 → c ≤ i ∧ i < n) ∧
    (∀ i j, i ∈ (drop_bad_times_traced g a n b c).2 →
      j ∈ (drop_bad_times_traced g a n b c).2 → i < j →
      |remove_weekly_wraps (g - a.pos_t.getD i 0)| < 0.1) := by
  generalize hk : n - c = k
  induction k generalizing c with
  | zero =>
    rw [drop_bad_times_traced_done g a n b c (by omega), drop_bad_times_done g a n b c (by omega)]
    simp
  | succ k ih =>
    by_cases hd : |remove_weekly_wraps (g - a.pos_t.getD c 0)| < 0.1
    · rw [drop_bad_times_traced_keep g a n b c (by omega) hd,
        drop_bad_times_keep g a n b c (by omega) hd]
      obtain ⟨h1, h2, h3, h4⟩ := ih (c + 1) (by omega)
      refine ⟨h1, ?_, ?_, ?_⟩
      · simp only [List.length_cons]
        omega
      · intro i hi
        rcases List.mem_cons.mp hi with rfl | hi
        · omega
        · have := h3 i hi
          omega
      · intro i j hi hj hij
        rcases List.mem_cons.mp hi with rfl | hi
        · exact hd
        · rcases List.mem_cons.mp hj with rfl | hj
          · have := h3 i hi
            omega
          · exact h4 i j hi hj hij
    · rw [drop_bad_times_traced_drop g a n b c (by omega) hd,
        drop_bad_times_drop g a n b c (by omega) hd]
      refine ⟨rfl, ?_, ?_, ?_⟩
      · simp only [List.length_singleton]
        omega
      · intro i hi
        rw [List.mem_singleton] at hi
        omega
      · intro i j hi hj hij
        rw [List.mem_singleton] at hi hj
        omega

theorem drop_bad_times_count (g : ℚ) (a : PosArrays) (n : Nat) (b : Bool) (c : Nat) :
    (drop_bad_times g a n b c).pos_used = n ∨ (drop_bad_times g a n b c).pos_used + 1 = n := by
  generalize hk : n - c = k
  induction k generalizing c with
  | zero => rw [drop_bad_times_done g a n b c (by omega)]; exact Or.inl rfl
  | succ k ih =>
    by_cases hd : |remove_weekly_wraps (g - a.pos_t.getD c 0)| < 0.1
    · rw [drop_bad_times_keep g a n b c (by omega) hd]
      exact ih (c + 1) (by omega)
    · rw [drop_bad_times_drop g a n b c (by omega) hd]
      right
      simp only
      omega

/-- C19. For every candidate list and every agreed time the removal loop removes
at most one entry: the survivor count is `n` or `n - 1`; and among the indices
the loop tests (the traced loop returns the same result), an index that is
followed by a later tested index is within tolerance, so that no index is tested
after the first out-of-tolerance one; every tested index is below `n`. -/
theorem C19_at_most_one_removed (g : ℚ) (a : PosArrays) (n : Nat) :
    ((drop_bad_times g a n false 0).pos_used = n ∨
      (drop_bad_times g a n false 0).pos_used + 1 = n) ∧
    (drop_bad_times_traced g a n false 0).1 = drop_bad_times g a n false 0 ∧
    (∀ i, i ∈ (drop_bad_times_traced g a n false 0).2 → i < n) ∧
    (∀ i j, i ∈ (drop_bad_times_traced g a n false 0).2 →
      j ∈ (drop_bad_times_traced g a n false 0).2 → i < j →
      |remove_weekly_wraps (g - a.pos_t.getD i 0)| < 0.1) := by
  obtain ⟨h1, _, h3, h4⟩ := drop_bad_times_traced_spec g a n false 0
  exact ⟨drop_bad_times_count g a n false 0, h1, fun i hi => (h3 i hi).2, h4⟩

/-- C20. The loops of the filter are total functions, and for every candidate
list and every agreed time each runs its body at most `pos_used` times: the
quorum loop, its inner counting loop for every `c`, the removal loop (one
iteration per tested index), and the shift loop for every start `c`.  Each
counted loop returns the result of the loop it counts. -/
theorem C20_filter_loops_bounded (g : ℚ) (a : PosArrays) (pos_used : Nat) :
    ((find_agreed_counted a.pos_t pos_used 0).1 = find_agreed a.pos_t pos_used 0 ∧
      (find_agreed_counted a.pos_t pos_used 0).2 ≤ pos_used) ∧
    (∀ c, (count_agreeing_counted a.pos_t pos_used c (c + 1) 1).1 =
        count_agreeing a.pos_t pos_used c (c + 1) 1 ∧
      (count_agreeing_counted a.pos_t pos_used c (c + 1) 1).2 ≤ pos_used) ∧
    ((drop_bad_times_traced g a pos_used false 0).1 = drop_bad_times g a pos_used false 0 ∧
      (drop_bad_times_traced g a pos_used false 0).2.length ≤ pos_used) ∧
    (∀ c, (shift_down_counted a pos_used c c).1 = shift_down a pos_used c c ∧
      (shift_down_counted a pos_used c c).2 ≤ pos_used) := by
  refine ⟨?_, ?_, ?_, ?_⟩
  · have := find_agreed_counted_eq a.pos_t pos_used 0
    exact ⟨this.1, by omega⟩
  · intro c
    have := count_agreeing_counted_eq a.pos_t pos_used c (c + 1) 1
    exact ⟨this.1, by omega⟩
  · have := drop_bad_times_traced_spec g a pos_used false 0
    exact ⟨this.1, by omega⟩
  · intro c
    have := shift_down_counted_eq a pos_used c c
    exact ⟨this.1, by omega⟩

/-! ## The collector loop -/

theorem store_through_getD_ne (l : List Double) (k i : Nat) (o : Option Double) (d : Double)
    (h : i ≠ k) : (store_through l k o).getD i d = l.getD i d := by
  cases o with
  | none => rfl
  | some v =>
    simp only [store_through, List.getD_eq_getElem?_getD, List.getElem?_set_ne (Ne.symm h)]

theorem collect_channel_bounds (R : Receiver) (s : Collected) (c : Nat) :
    s.pos_used ≤ (collect_channel R s c).pos_used ∧
    (collect_channel R s c).pos_used ≤ s.pos_used + 1 ∧
    ∀ i, i ∈ (collect_channel R s c).writes → i ∈ s.writes ∨ i = s.pos_used := by
  unfold collect_channel
  simp only
  split_ifs <;> refine ⟨by simp, by simp, ?_⟩ <;> intro i hi <;>
    (try simp only [List.mem_append, List.mem_cons, List.mem_singleton, List.not_mem_nil,
      or_false, or_self] at hi) <;> tauto

theorem collect_bounds (R : Receiver) (s : Collected) (c : Nat) (h1 : s.pos_used ≤ 10)
    (h2 : ∀ i, i ∈ s.writes → i < 10) :
    (collect R s c).pos_used ≤ 10 ∧ ∀ i, i ∈ (collect R s c).writes → i < 10 := by
  generalize hk : (R.channel_get_count - c).toNat = k
  induction k generalizing s c with
  | zero =>
    rw [collect, dif_neg (by omega)]
    exact ⟨h1, h2⟩
  | succ k ih =>
    rw [collect]
    by_cases hc : (c : Int) < R.channel_get_count ∧ s.pos_used < MAX_POS
    · rw [dif_pos hc]
      have hA : MAX_POS = 10 := rfl
      rw [hA] at hc
      obtain ⟨_, hb2, hb3⟩ := collect_channel_bounds R s c
      apply ih
      · omega
      · intro i hi
        rcases hb3 i hi with hw | hw
        · exact h2 i hw
        · omega
      · omega
    · rw [dif_neg hc]
      exact ⟨h1, h2⟩

theorem passes_range_test (d : Double)
    (h : ¬ (d.lt_num 0 = true ∨ d.ge_num (7 * 24 * 3600) = true)) :
    d = Double.nan ∨ d.in_week = true := by
  cases d with
  | nan => exact Or.inl rfl
  | pos_inf => exact absurd (Or.inr rfl) h
  | neg_inf => exact absurd (Or.inl rfl) h
  | num x =>
    right
    simp only [Double.lt_num, Double.ge_num, decide_eq_true_eq, not_or, not_lt, ge_iff_le,
      not_le] at h
    simp only [Double.in_week, decide_eq_true_eq]
    have h7d : (7 * 24 * 3600 : ℚ) = 604800 := by norm_num
    rw [h7d] at h
    exact h

theorem collect_channel_times (R : Receiver) (s : Collected) (c : Nat)
    (hs : ∀ i, i < s.pos_used →
      s.pos.pos_t.getD i (Double.num 0) = Double.nan ∨
        (s.pos.pos_t.getD i (Double.num 0)).in_week = true) :
    ∀ i, i < (collect_channel R s c).pos_used →
      (collect_channel R s c).pos.pos_t.getD i (Double.num 0) = Double.nan ∨
        ((collect_channel R s c).pos.pos_t.getD i (Double.num 0)).in_week = true := by
  unfold collect_channel
  simp only
  split_ifs with h1 h2 h3 h4 h5 h6 h7
  · exact hs
  · exact hs
  · exact hs
  · exact hs
  · intro i hi
    simp only at hi ⊢
    rw [store_through_getD_ne _ _ _ _ _ (by omega)]
    exact hs i hi
  · intro i hi
    simp only at hi ⊢
    rw [store_through_getD_ne _ _ _ _ _ (by omega)]
    exact hs i hi
  · intro i hi
    simp only at hi ⊢
    rw [store_through_getD_ne _ _ _ _ _ (by omega)]
    exact hs i hi
  · intro i hi
    simp only at hi ⊢
    by_cases hik : i = s.pos_used
    · subst hik
      exact passes_range_test _ h6
    · rw [store_through_getD_ne _ _ _ _ _ hik]
      exact hs i (by omega)

theorem collect_times (R : Receiver) (s : Collected) (c : Nat)
    (hs : ∀ i, i < s.pos_used →
      s.pos.pos_t.getD i (Double.num 0) = Double.nan ∨
        (s.pos.pos_t.getD i (Double.num 0)).in_week = true) :
    ∀ i, i < (collect R s c).pos_used →
      (collect R s c).pos.pos_t.getD i (Double.num 0) = Double.nan ∨
        ((collect R s c).pos.pos_t.getD i (Double.num 0)).in_week = true := by
  generalize hk : (R.channel_get_count - c).toNat = k
  induction k generalizing s c with
  | zero =>
    rw [collect, dif_neg (by omega)]
    exact hs
  | succ k ih =>
    rw [collect]
    by_cases hc : (c : Int) < R.channel_get_count ∧ s.pos_used < MAX_POS
    · rw [dif_pos hc]
      exact ih _ (c + 1) (collect_channel_times R s c hs) (by omega)
    · rw [dif_neg hc]
      exact hs

theorem collect_channel_out_of_week (R : Receiver) (s : Collected) (c : Nat)
    (ht : (corrected_time R s c).lt_num 0 = true ∨
      (corrected_time R s c).ge_num 604800 = true) :
    (collect_channel R s c).pos_used = s.pos_used ∧
    ∀ i, i < s.pos_used →
      (collect_channel R s c).pos.pos_sv.getD i 0 = s.pos.pos_sv.getD i 0 ∧
      (collect_channel R s c).pos.pos_x.getD i (Double.num 0) =
        s.pos.pos_x.getD i (Double.num 0) ∧
      (collect_channel R s c).pos.pos_y.getD i (Double.num 0) =
        s.pos.pos_y.getD i (Double.num 0) ∧
      (collect_channel R s c).pos.pos_z.getD i (Double.num 0) =
        s.pos.pos_z.getD i (Double.num 0) ∧
      (collect_channel R s c).pos.pos_t.getD i (Double.num 0) =
        s.pos.pos_t.getD i (Double.num 0) := by
  have h7d : (7 * 24 * 3600 : ℚ) = 604800 := by norm_num
  unfold collect_channel
  simp only
  unfold corrected_time at ht
  split_ifs with h1 h2 h3 h4 h5 h6 h7
  · exact ⟨rfl, fun i _ => ⟨rfl, rfl, rfl, rfl, rfl⟩⟩
  · exact ⟨rfl, fun i _ => ⟨rfl, rfl, rfl, rfl, rfl⟩⟩
  · exact ⟨rfl, fun i _ => ⟨rfl, rfl, rfl, rfl, rfl⟩⟩
  · exact ⟨rfl, fun i _ => ⟨rfl, rfl, rfl, rfl, rfl⟩⟩
  · exact ⟨rfl, fun i hi => ⟨rfl, rfl, rfl, rfl,
      store_through_getD_ne _ _ _ _ _ (by omega)⟩⟩
  · exact ⟨rfl, fun i hi => ⟨rfl, rfl, rfl, rfl,
      store_through_getD_ne _ _ _ _ _ (by omega)⟩⟩
  · exfalso
    apply h6
    rw [h7d]
    exact ht
  · exfalso
    apply h6
    rw [h7d]
    exact ht

/-- C15. For any answers of the channel and nav functions, any channel count and
any initial contents of the arrays, the collector loop ends with `pos_used` at
most 10, and every index at which it wrote `pos_sv` or `pos_t`, or handed out
`pos_t+pos_used`, `pos_x+pos_used`, `pos_y+pos_used`, `pos_z+pos_used` as an
output pointer, is below 10. -/
theorem C15_collector_within_capacity (R : Receiver) (a : CollectorArrays) :
    (collect R { pos := a, pos_used := 0, writes := [] } 0).pos_used ≤ 10 ∧
    ∀ i, i ∈ (collect R { pos := a, pos_used := 0, writes := [] } 0).writes → i < 10 :=
  collect_bounds R _ 0 (by simp) (by simp)

/-- C16 (evaluation of the code). Line 192 tests `pos_t[pos_used] < 0 ||
pos_t[pos_used] >= 7*24*3600`, and both comparisons are false for NaN.  With
`nan_receiver` (one channel, whose corrected time is NaN) the collector loop
ends with one candidate, and its time is NaN, which is not a time `t` with
`0 <= t < 604800`.  What the loop does ensure, for every receiver and initial
arrays: the time of each candidate is NaN or in `[0, 604800)`; and a channel
whose corrected time is below 0 or at least 604800 (the infinities included)
leaves `pos_used` and the rows below it as they were. -/
theorem C16_nan_time_is_collected :
    ((collect nan_receiver { pos := blank_arrays, pos_used := 0, writes := [] } 0).pos_used = 1 ∧
      (collect nan_receiver { pos := blank_arrays, pos_used := 0, writes := [] } 0).pos.pos_t.getD
          0 (Double.num 0) = Double.nan ∧
      Double.nan.lt_num 0 = false ∧ Double.nan.ge_num (7 * 24 * 3600) = false ∧
      Double.nan.in_week = false) ∧
    (∀ (R : Receiver) (a : CollectorArrays) (i : Nat),
      i < (collect R { pos := a, pos_used := 0, writes := [] } 0).pos_used →
      (collect R { pos := a, pos_used := 0, writes := [] } 0).pos.pos_t.getD i (Double.num 0) =
          Double.nan ∨
        ((collect R { pos := a, pos_used := 0, writes := [] } 0).pos.pos_t.getD i
          (Double.num 0)).in_week = true) ∧
    (∀ (R : Receiver) (s : Collected) (c : Nat),
      ((corrected_time R s c).lt_num 0 = true ∨ (corrected_time R s c).ge_num 604800 = true) →
      (collect_channel R s c).pos_used = s.pos_used ∧
      ∀ i, i < s.pos_used →
        (collect_channel R s c).pos.pos_sv.getD i 0 = s.pos.pos_sv.getD i 0 ∧
        (collect_channel R s c).pos.pos_x.getD i (Double.num 0) =
          s.pos.pos_x.getD i (Double.num 0) ∧
        (collect_channel R s c).pos.pos_y.getD i (Double.num 0) =
          s.pos.pos_y.getD i (Double.num 0) ∧
        (collect_channel R s c).pos.pos_z.getD i (Double.num 0) =
          s.pos.pos_z.getD i (Double.num 0) ∧
        (collect_channel R s c).pos.pos_t.getD i (Double.num 0) =
          s.pos.pos_t.getD i (Double.num 0)) := by
  refine ⟨by decide!, ?_, fun R s c ht => collect_channel_out_of_week R s c ht⟩
  intro R a i hi
  exact collect_times R _ 0 (by intro i hi; simp at hi) i hi

end Fsgps
